import Mathlib

/-!
Verification development for the soroscope core: a shallow embedding, in Lean,
of the server-side analysis pipeline (argument parser, simulation engine,
provider registry with circuit breaker, insights engine, and cost-model
registry), together with theorems settling the specification claims.

Modelling conventions, used throughout:

* Rust `u64` values are modelled as `Nat`; where the source can overflow a
  `u64` addition, an explicit `% 2 ^ 64` records the wrap-around (intermediate
  wrapping additions are equivalent to one reduction at the end because
  `Nat.add` commutes with `% m`).
* Rust `String`/`str` values inside the argument parser (JSON string values
  and object keys, symbol and byte payloads) are modelled by their UTF-8 byte
  sequences as `List Nat`, which is exactly the `Vec<u8>` representation the
  `StringM`/`BytesM` XDR types hold.  Engine-level strings (URLs, error
  messages) are modelled as Lean `String`.
* External crates are not re-implemented: base64 decoding, XDR decoding of
  `SorobanTransactionData`, strkey address decoding and the textual JSON
  front-end of `serde_json` enter the embedding as explicit function
  parameters, so every theorem quantifies over their behaviour.
-/

/-- UTF-8 byte sequence of a Lean string, as a list of naturals.  This is the
byte representation a Rust `String` holds. -/
def strBytes (s : String) : List Nat :=
  s.data.flatMap (fun c => (String.utf8EncodeChar c).map (fun b => b.toNat))

/-- Rust `String::len` — the length of the UTF-8 byte representation. -/
def rustLen (s : String) : Nat := (strBytes s).length

/-- Rust `str::starts_with` on strings, decided on the character lists (the
built-in `String.startsWith` is positional and does not reduce in the
kernel). -/
def strStarts (s p : String) : Bool := p.data.isPrefixOf s.data

/-- Decidable equality for `Except`, used to evaluate results on concrete
inputs. -/
instance {ε α : Type} [DecidableEq ε] [DecidableEq α] : DecidableEq (Except ε α) :=
  fun a b =>
    match a, b with
    | .ok x, .ok y =>
      if h : x = y then isTrue (by rw [h]) else isFalse (by intro hh; cases hh; exact h rfl)
    | .error x, .error y =>
      if h : x = y then isTrue (by rw [h]) else isFalse (by intro hh; cases hh; exact h rfl)
    | .ok _, .error _ => isFalse (by intro hh; cases hh)
    | .error _, .ok _ => isFalse (by intro hh; cases hh)

/-- One more than the largest `u64` value. -/
def u64Size : Nat := 2 ^ 64

/-- The largest `u32` value, which bounds the default XDR `VecM`, `BytesM` and
`StringM` containers. -/
def u32Max : Nat := 4294967295

-- ── Stable sort (models Rust `sort_by`) ──────────────────────────────────────

/-- Insert `x` into `l`, before the first element `y` with `le x y`.  For a
total preorder this is the stable insertion step. -/
def insertBy (le : α → α → Bool) (x : α) : List α → List α
  | [] => [x]
  | y :: ys => if le x y then x :: y :: ys else y :: insertBy le x ys

/-- Stable insertion sort.  Models Rust `slice::sort_by` (a stable merge
sort): for a total preorder every stable sort produces the same output, and
this structurally recursive form is computable by the kernel. -/
def sortBy (le : α → α → Bool) : List α → List α
  | [] => []
  | x :: xs => insertBy le x (sortBy le xs)

-- ── Byte-sequence comparison (models `Vec<u8>::cmp`, lexicographic) ──────────

/-- Non-strict lexicographic comparison of byte sequences, as produced by
`Ordering::is_le` on Rust `Vec<u8>::cmp`: a proper prefix compares below any
extension. -/
def bytesLe : List Nat → List Nat → Bool
  | [], _ => true
  | _ :: _, [] => false
  | a :: as, b :: bs => if a < b then true else if b < a then false else bytesLe as bs

/-- Strict lexicographic comparison of byte sequences. -/
def bytesLt : List Nat → List Nat → Bool
  | [], [] => false
  | [], _ :: _ => true
  | _ :: _, [] => false
  | a :: as, b :: bs => if a < b then true else if b < a then false else bytesLt as bs

-- ── XDR primitive encoders ───────────────────────────────────────────────────

/-- Big-endian 4-byte encoding of an unsigned 32-bit value. -/
def u32BE (n : Nat) : List Nat :=
  [n / 16777216 % 256, n / 65536 % 256, n / 256 % 256, n % 256]

/-- Big-endian 8-byte encoding of an unsigned 64-bit value. -/
def u64BE (n : Nat) : List Nat := u32BE (n / 4294967296) ++ u32BE n

/-- Big-endian 8-byte two's-complement encoding of a signed 64-bit value. -/
def i64BE (i : Int) : List Nat := u64BE (i % (2 ^ 64 : Nat)).toNat

/-- Big-endian 4-byte two's-complement encoding of a signed 32-bit value. -/
def i32BE (i : Int) : List Nat := u32BE (i % (2 ^ 32 : Nat)).toNat

/-- Big-endian 16-byte encoding of an unsigned 128-bit value. -/
def u128BE (n : Nat) : List Nat := u64BE (n / 2 ^ 64) ++ u64BE n

/-- Big-endian 16-byte two's-complement encoding of a signed 128-bit value. -/
def i128BE (i : Int) : List Nat := u128BE (i % (2 ^ 128 : Nat)).toNat

/-- Big-endian 32-byte encoding of an unsigned 256-bit value. -/
def u256BE (n : Nat) : List Nat := u128BE (n / 2 ^ 128) ++ u128BE n

/-- Big-endian 32-byte two's-complement encoding of a signed 256-bit value. -/
def i256BE (i : Int) : List Nat := u256BE (i % (2 ^ 256 : Nat)).toNat

/-- Pad a byte sequence with zero bytes to a multiple of four, as XDR requires
for opaque and string payloads. -/
def pad4 (bs : List Nat) : List Nat :=
  bs ++ List.replicate ((4 - bs.length % 4) % 4) 0

/-- XDR variable-length opaque / string encoding: 4-byte length, payload,
zero padding to a 4-byte boundary. -/
def xdrOpaque (bs : List Nat) : List Nat := u32BE bs.length ++ pad4 bs

-- ── Value tree (`ScVal`) ─────────────────────────────────────────────────────

/-- Contract-value address (`ScAddress`): an account public key or a contract
hash, each carried as its 32-byte payload. -/
inductive ScAddress where
  | account (ed25519 : List Nat)
  | contract (hash : List Nat)

/-- The blockchain value tree (`soroban_sdk::xdr::ScVal`).  String-like
payloads are the byte sequences the XDR types hold.  The `scvError`,
`scvContractInstance` and `scvLedgerKeyNonce` payloads are elided: the
embedded code never constructs those variants and only inspects their
discriminant (in `estimate_scval_size`). -/
inductive ScVal where
  | scvBool (b : Bool)
  | scvVoid
  | scvError
  | scvU32 (n : Nat)
  | scvI32 (i : Int)
  | scvU64 (n : Nat)
  | scvI64 (i : Int)
  | scvTimepoint (n : Nat)
  | scvDuration (n : Nat)
  | scvU128 (n : Nat)
  | scvI128 (i : Int)
  | scvU256 (n : Nat)
  | scvI256 (i : Int)
  | scvBytes (bs : List Nat)
  | scvString (bs : List Nat)
  | scvSymbol (bs : List Nat)
  | scvVec (v : Option (List ScVal))
  | scvMap (m : Option (List (ScVal × ScVal)))
  | scvAddress (a : ScAddress)
  | scvLedgerKeyContractInstance
  | scvLedgerKeyNonce
  | scvContractInstance

/-- XDR encoding of an `ScAddress`: discriminant, then for accounts the
`PublicKey` union discriminant (ed25519 = 0) and 32 key bytes, for contracts
the 32 hash bytes. -/
def scAddressXdr : ScAddress → List Nat
  | .account bs => u32BE 0 ++ u32BE 0 ++ bs
  | .contract h => u32BE 1 ++ h

mutual

/-- Canonical XDR encoding of an `ScVal` (`WriteXdr::to_xdr`): the
`SCValType` discriminant as a big-endian u32, then the payload.  For the
three payload-elided variants only the discriminant is emitted; the argument
parser never constructs them, and no claim evaluates their encoding. -/
def scValXdr : ScVal → List Nat
  | .scvBool b => u32BE 0 ++ u32BE (if b then 1 else 0)
  | .scvVoid => u32BE 1
  | .scvError => u32BE 2
  | .scvU32 n => u32BE 3 ++ u32BE n
  | .scvI32 i => u32BE 4 ++ i32BE i
  | .scvU64 n => u32BE 5 ++ u64BE n
  | .scvI64 i => u32BE 6 ++ i64BE i
  | .scvTimepoint n => u32BE 7 ++ u64BE n
  | .scvDuration n => u32BE 8 ++ u64BE n
  | .scvU128 n => u32BE 9 ++ u128BE n
  | .scvI128 i => u32BE 10 ++ i128BE i
  | .scvU256 n => u32BE 11 ++ u256BE n
  | .scvI256 i => u32BE 12 ++ i256BE i
  | .scvBytes bs => u32BE 13 ++ xdrOpaque bs
  | .scvString bs => u32BE 14 ++ xdrOpaque bs
  | .scvSymbol bs => u32BE 15 ++ xdrOpaque bs
  | .scvVec none => u32BE 16 ++ u32BE 0
  | .scvVec (some xs) => u32BE 16 ++ u32BE 1 ++ u32BE xs.length ++ scValListXdr xs
  | .scvMap none => u32BE 17 ++ u32BE 0
  | .scvMap (some es) => u32BE 17 ++ u32BE 1 ++ u32BE es.length ++ scMapEntriesXdr es
  | .scvAddress a => u32BE 18 ++ scAddressXdr a
  | .scvContractInstance => u32BE 19
  | .scvLedgerKeyContractInstance => u32BE 20
  | .scvLedgerKeyNonce => u32BE 21

/-- Concatenated XDR encodings of a list of values. -/
def scValListXdr : List ScVal → List Nat
  | [] => []
  | x :: xs => scValXdr x ++ scValListXdr xs

/-- Concatenated XDR encodings of map entries (key then value). -/
def scMapEntriesXdr : List (ScVal × ScVal) → List Nat
  | [] => []
  | e :: es => scValXdr e.1 ++ scValXdr e.2 ++ scMapEntriesXdr es

end

-- ── Argument parser (`src/core/src/parser.rs`) ───────────────────────────────

/-- Parser errors (`ParserError`).  All message fields are the UTF-8 byte
sequences of the Rust strings. -/
inductive ParserError where
  | invalidType (location expected found : List Nat)
  | invalidSymbol (location details : List Nat)
  | invalidHex (location details : List Nat)
deriving DecidableEq

/-- An already-decoded JSON document (the output of `serde_json`).  Strings
and object keys are UTF-8 byte sequences.  `num` carries integer-valued JSON
numbers (those answering `as_i64`/`as_u64`); `numNonInt` carries any other
number together with its display text, used only in the error message. -/
inductive Json where
  | null
  | bool (b : Bool)
  | num (i : Int)
  | numNonInt (display : String)
  | str (s : List Nat)
  | arr (elems : List Json)
  | obj (entries : List (List Nat × Json))

/-- Value of a single hexadecimal digit byte, if any (models the per-byte
table of the `hex` crate; accepts `0-9`, `a-f`, `A-F`). -/
def hexVal (b : Nat) : Option Nat :=
  if 48 ≤ b ∧ b ≤ 57 then some (b - 48)
  else if 97 ≤ b ∧ b ≤ 102 then some (b - 87)
  else if 65 ≤ b ∧ b ≤ 70 then some (b - 55)
  else none

/-- Decode an even-length hex byte sequence two digits at a time, reporting
the first invalid byte and its position (models `hex::decode` after its
odd-length check). -/
def hexDecodeCore : List Nat → Nat → Except (Nat × Nat) (List Nat)
  | [], _ => .ok []
  | [b], i => .error (b, i)
  | hi :: lo :: rest, i =>
    match hexVal hi with
    | none => .error (hi, i)
    | some h =>
      match hexVal lo with
      | none => .error (lo, i + 1)
      | some l =>
        match hexDecodeCore rest (i + 2) with
        | .error e => .error e
        | .ok out => .ok ((16 * h + l) :: out)

/-- Display bytes of the `hex` crate error for an invalid character: the
byte, quoted, and its position.  (The crate renders the char with `{:?}`;
for the printable ASCII range that is the char between single quotes, which
is what this produces — byte 39 is the quote.) -/
def invalidCharMsg (c i : Nat) : List Nat :=
  strBytes "Invalid character " ++ [39, c, 39] ++ strBytes " at position " ++
    strBytes (toString i)

namespace ArgParser

/-- String-value arm of `ArgParser::parse_value`, in source order: address
detection (`G`/`C` head and byte length 56, falling through on strkey
failure), then `:` symbols, then `0x` hex bytes, then plain strings.
`strkeyP` models `stellar_strkey::Strkey::from_string` combined with the
account/contract match of `parse_address`. -/
def parse_value_string (strkeyP : List Nat → Option ScAddress)
    (s : List Nat) (path : List Nat) : Except ParserError ScVal :=
  let addr : Option ScAddress :=
    if (s.take 1 = [71] ∨ s.take 1 = [67]) ∧ s.length = 56 then strkeyP s else none
  match addr with
  | some a => .ok (.scvAddress a)
  | none =>
    match s with
    | 58 :: rest =>
      if rest.length ≤ 32 then .ok (.scvSymbol rest)
      else .error (.invalidSymbol path (strBytes "Symbol must be 1-32 characters"))
    | 48 :: 120 :: hexRest =>
      if hexRest.length % 2 ≠ 0 then
        .error (.invalidHex path (strBytes "Odd number of digits"))
      else
        match hexDecodeCore hexRest 0 with
        | .error e => .error (.invalidHex path (invalidCharMsg e.1 e.2))
        | .ok bytes =>
          if bytes.length ≤ u32Max then .ok (.scvBytes bytes)
          else .error (.invalidHex path (strBytes "Bytes exceed maximum allowed size"))
    | _ =>
      if s.length ≤ u32Max then .ok (.scvString s)
      else .error (.invalidType path (strBytes "shorter string")
        (strBytes "string length exceeds limit"))

mutual

/-- Recursive core of `ArgParser::parse_value` over a decoded JSON value.
`path` is the JSON-pointer-like location, as bytes. -/
def parse_value (strkeyP : List Nat → Option ScAddress) :
    Json → List Nat → Except ParserError ScVal
  | .null, _ => .ok .scvVoid
  | .bool b, _ => .ok (.scvBool b)
  | .num i, path =>
    if -(2 ^ 63 : Int) ≤ i ∧ i ≤ 2 ^ 63 - 1 then .ok (.scvI64 i)
    else if 0 ≤ i ∧ i ≤ 2 ^ 64 - 1 then .ok (.scvU64 i.toNat)
    else .error (.invalidType path (strBytes "integer")
      (strBytes ("number " ++ toString i)))
  | .numNonInt d, path =>
    .error (.invalidType path (strBytes "integer") (strBytes ("number " ++ d)))
  | .str s, path => parse_value_string strkeyP s path
  | .arr xs, path =>
    match parse_array strkeyP xs path 0 with
    | .error e => .error e
    | .ok vals =>
      if xs.length ≤ u32Max then .ok (.scvVec (some vals))
      else .error (.invalidType path (strBytes "shorter vector")
        (strBytes "vector size exceeds limit"))
  | .obj entries, path =>
    match parse_object strkeyP entries path with
    | .error e => .error e
    | .ok es =>
      if es.length ≤ u32Max then
        .ok (.scvMap (some (sortBy (fun a b => bytesLe (scValXdr a.1) (scValXdr b.1)) es)))
      else .error (.invalidType path (strBytes "smaller map")
        (strBytes "map size exceeds limit"))

/-- Array elements, each parsed at location `path[i]`. -/
def parse_array (strkeyP : List Nat → Option ScAddress) :
    List Json → List Nat → Nat → Except ParserError (List ScVal)
  | [], _, _ => .ok []
  | x :: xs, path, i =>
    match parse_value strkeyP x (path ++ strBytes "[" ++ strBytes (toString i) ++ strBytes "]") with
    | .error e => .error e
    | .ok v =>
      match parse_array strkeyP xs path (i + 1) with
      | .error e => .error e
      | .ok vs => .ok (v :: vs)

/-- Object entries: each key becomes a symbol (at most 32 bytes), each value
is parsed at location `path.key`. -/
def parse_object (strkeyP : List Nat → Option ScAddress) :
    List (List Nat × Json) → List Nat → Except ParserError (List (ScVal × ScVal))
  | [], _ => .ok []
  | (k, v) :: rest, path =>
    if k.length ≤ 32 then
      match parse_value strkeyP v (path ++ [46] ++ k) with
      | .error e => .error e
      | .ok val =>
        match parse_object strkeyP rest path with
        | .error e => .error e
        | .ok out => .ok ((ScVal.scvSymbol k, val) :: out)
    else .error (.invalidSymbol (path ++ [46] ++ k) (strBytes "Key name too long for symbol"))

end

/-- `ArgParser::parse`: run the textual JSON front-end (`serde_json`,
supplied as `jsonP`, which returns its error display text on failure), then
`parse_value` at location `$`. -/
def parse (jsonP : String → Except String Json) (strkeyP : List Nat → Option ScAddress)
    (s : String) : Except ParserError ScVal :=
  match jsonP s with
  | .error m => .error (.invalidType (strBytes "$") (strBytes "valid JSON") (strBytes m))
  | .ok v => parse_value strkeyP v (strBytes "$")

end ArgParser

-- ── Rust numeric string parsing (`str::parse`) ───────────────────────────────

/-- Drop one optional leading plus sign (the unsigned `from_str` prelude). -/
def stripPlus : List Char → List Char
  | [] => []
  | c :: rest => if c = '+' then rest else c :: rest

/-- Decimal value of a digit character list. -/
def digitsVal (t : List Char) : Nat :=
  t.foldl (fun acc c => acc * 10 + (c.toNat - 48)) 0

/-- Rust `u64::from_str`: an optional leading plus sign, one or more ASCII
digits, and no overflow past the `u64` maximum. -/
def parseU64 (s : String) : Option Nat :=
  let t := stripPlus s.data
  if t ≠ [] ∧ t.all (fun c => c.isDigit) then
    (if digitsVal t < u64Size then some (digitsVal t) else none)
  else none

/-- Rust `u16::from_str`, same shape with the 16-bit bound. -/
def parseU16 (s : String) : Option Nat :=
  let t := stripPlus s.data
  if t ≠ [] ∧ t.all (fun c => c.isDigit) then
    (if digitsVal t < 65536 then some (digitsVal t) else none)
  else none

/-- Drop one optional leading sign (the signed `from_str` prelude). -/
def stripSign : List Char → List Char
  | [] => []
  | c :: rest => if c = '+' ∨ c = '-' then rest else c :: rest

/-- Rust `i64::from_str`: an optional sign, digits, and the signed 64-bit
range. -/
def parseI64 (s : String) : Option Int :=
  let neg : Bool := s.data.head? == some '-'
  let t := stripSign s.data
  if t ≠ [] ∧ t.all (fun c => c.isDigit) then
    if neg then (if digitsVal t ≤ 2 ^ 63 then some (-(digitsVal t : Int)) else none)
    else (if digitsVal t < 2 ^ 63 then some (digitsVal t : Int) else none)
  else none

-- ── Simulation engine (`src/core/src/simulation.rs`) ─────────────────────────

/-- Simulation error kinds (`SimulationError`).  Each variant carries the
display text of its payload where the engine builds or inspects it. -/
inductive SimulationError where
  | io (msg : String)
  | rpcRequestFailed (msg : String)
  | nodeTimeout
  | nodeError (msg : String)
  | serializationError (msg : String)
  | networkError (msg : String)
  | base64Error (msg : String)
  | xdrError (msg : String)
  | parseError (e : ParserError)
deriving DecidableEq

/-- Resource metrics record (`SorobanResources`).  All fields are `u64`. -/
structure SorobanResources where
  cpu_instructions : Nat
  ram_bytes : Nat
  ledger_read_bytes : Nat
  ledger_write_bytes : Nat
  transaction_size_bytes : Nat
deriving DecidableEq

/-- Componentwise order on resource records, as used by the cost
monotonicity property. -/
def SorobanResources.le (r1 r2 : SorobanResources) : Prop :=
  r1.cpu_instructions ≤ r2.cpu_instructions ∧
  r1.ram_bytes ≤ r2.ram_bytes ∧
  r1.ledger_read_bytes ≤ r2.ledger_read_bytes ∧
  r1.ledger_write_bytes ≤ r2.ledger_write_bytes ∧
  r1.transaction_size_bytes ≤ r2.transaction_size_bytes

/-- The componentwise order is decidable, so concrete instances can be
checked by evaluation. -/
instance (r1 r2 : SorobanResources) : Decidable (SorobanResources.le r1 r2) := by
  unfold SorobanResources.le
  infer_instance

/-- Origin tag of a state-dependency entry. -/
inductive DataSource where
  | live
  | injected
deriving DecidableEq

/-- One state-dependency report entry. -/
structure StateDependency where
  key : String
  source : DataSource
deriving DecidableEq

/-- Complete simulation result (`SimulationResult`). -/
structure SimulationResult where
  resources : SorobanResources
  transaction_hash : Option String
  latest_ledger : Nat
  cost_stroops : Nat
  state_dependency : Option (List StateDependency)
deriving DecidableEq

/-- The `cost` object of a successful `simulateTransaction` response; both
fields arrive as decimal strings. -/
structure ResourceCost where
  cpu_insns : String
  mem_bytes : String
deriving DecidableEq

/-- Successful `simulateTransaction` payload (`SimulationRpcResult`).  The
`results` array is dead code in the source and is not modelled. -/
structure SimulationRpcResult where
  transaction_data : String
  latest_ledger : Nat
  cost : Option ResourceCost
deriving DecidableEq

/-- JSON-RPC error object. -/
structure RpcError where
  code : Int
  message : String
deriving DecidableEq

/-- The two shapes of a `simulateTransaction` response body. -/
inductive ResponseResult where
  | success (result : SimulationRpcResult)
  | error (error : RpcError)
deriving DecidableEq

/-- A single RPC endpoint (`RpcProvider`). -/
structure RpcProvider where
  name : String
  url : String
  auth_header : Option String
  auth_value : Option String
deriving DecidableEq

/-- Ledger key variants (`soroban_sdk::xdr::LedgerKey`).  Payloads other
than the contract-data key are elided: `calculate_ledger_keys_size` inspects
only the variant, plus the key value of contract-data entries. -/
inductive LedgerKey where
  | account
  | trustline
  | contractData (key : ScVal)
  | contractCode
  | offer
  | data
  | claimableBalance
  | liquidityPool
  | configSetting
  | ttl

/-- The two key lists of a decoded `SorobanTransactionData` footprint. -/
structure Footprint where
  read_only : List LedgerKey
  read_write : List LedgerKey

namespace SimulationEngine

mutual

/-- Recursive value-size estimate (`SimulationEngine::estimate_scval_size`).
Sums are plain naturals; the observable `u64` value is obtained by the
single wrap in `calculate_ledger_keys_size` (wrapping each intermediate
addition is equivalent, since `Nat.add` commutes with `% m`). -/
def estimate_scval_size : ScVal → Nat
  | .scvBool _ => 1
  | .scvVoid => 0
  | .scvError => 8
  | .scvU32 _ => 4
  | .scvI32 _ => 4
  | .scvU64 _ => 8
  | .scvI64 _ => 8
  | .scvTimepoint _ => 8
  | .scvDuration _ => 8
  | .scvU128 _ => 16
  | .scvI128 _ => 16
  | .scvU256 _ => 32
  | .scvI256 _ => 32
  | .scvBytes bs => bs.length
  | .scvString s => s.length
  | .scvSymbol sym => sym.length
  | .scvVec (some xs) => estimate_scval_list xs + 4
  | .scvVec none => 4
  | .scvMap (some es) => estimate_scval_entries es + 4
  | .scvMap none => 4
  | .scvAddress _ => 32
  | .scvLedgerKeyContractInstance => 32
  | .scvLedgerKeyNonce => 32
  | .scvContractInstance => 64

/-- Size estimate of a vector payload. -/
def estimate_scval_list : List ScVal → Nat
  | [] => 0
  | x :: xs => estimate_scval_size x + estimate_scval_list xs

/-- Size estimate of a map payload (key plus value per entry). -/
def estimate_scval_entries : List (ScVal × ScVal) → Nat
  | [] => 0
  | e :: es => estimate_scval_size e.1 + estimate_scval_size e.2 + estimate_scval_entries es

end

/-- Per-variant byte budget of one ledger key
(`SimulationEngine::calculate_ledger_keys_size`, match arms). -/
def ledger_key_size : LedgerKey → Nat
  | .account => 56
  | .trustline => 72
  | .contractData key => 32 + 4 + estimate_scval_size key
  | .contractCode => 32
  | .offer => 48
  | .data => 64
  | .claimableBalance => 36
  | .liquidityPool => 32
  | .configSetting => 8
  | .ttl => 32

/-- Total byte budget of a key list, accumulated in a `u64`
(`SimulationEngine::calculate_ledger_keys_size`). -/
def calculate_ledger_keys_size (keys : List LedgerKey) : Nat :=
  ((keys.map ledger_key_size).sum) % u64Size

/-- Footprint extraction (`SimulationEngine::extract_footprint_from_xdr`):
empty data, base64 failure and XDR failure all yield `(0, 0)`.  `b64decode`
models the strict `base64` crate decoder; `sorobanDataP` models
`SorobanTransactionData::from_xdr` restricted to its footprint. -/
def extract_footprint_from_xdr (b64decode : String → Option (List Nat))
    (sorobanDataP : List Nat → Option Footprint) (transaction_data : String) : Nat × Nat :=
  if transaction_data = "" then (0, 0)
  else
    match b64decode transaction_data with
    | none => (0, 0)
    | some bytes =>
      match sorobanDataP bytes with
      | none => (0, 0)
      | some fp =>
        (calculate_ledger_keys_size fp.read_only, calculate_ledger_keys_size fp.read_write)

/-- Baseline fee (`SimulationEngine::calculate_cost`):
`cpu/10000 + ram/1024 + (read+write)/1024`, all in `u64` arithmetic.  The
read+write addition can wrap; the final sum of the three quotients cannot
wrap for in-range fields, but the reduction is kept for faithfulness. -/
def calculate_cost (r : SorobanResources) : Nat :=
  let cpu_cost := r.cpu_instructions / 10000
  let ram_cost := r.ram_bytes / 1024
  let ledger_cost := ((r.ledger_read_bytes + r.ledger_write_bytes) % u64Size) / 1024
  (cpu_cost + ram_cost + ledger_cost) % u64Size

/-- Response post-processing (`SimulationEngine::parse_simulation_result`):
parse the cost strings (defaulting to 0), extract the footprint, take
`transaction_size_bytes` from the length of the `transaction_data` string as
transmitted, and price the record with `calculate_cost`. -/
def parse_simulation_result (b64decode : String → Option (List Nat))
    (sorobanDataP : List Nat → Option Footprint) (rpc_result : SimulationRpcResult) :
    Except SimulationError SimulationResult :=
  let resources : SorobanResources :=
    match rpc_result.cost with
    | some cost =>
      let cpu_instructions := (parseU64 cost.cpu_insns).getD 0
      let ram_bytes := (parseU64 cost.mem_bytes).getD 0
      let rw := extract_footprint_from_xdr b64decode sorobanDataP rpc_result.transaction_data
      { cpu_instructions := cpu_instructions
        ram_bytes := ram_bytes
        ledger_read_bytes := rw.1
        ledger_write_bytes := rw.2
        transaction_size_bytes := rustLen rpc_result.transaction_data }
    | none =>
      { cpu_instructions := 0, ram_bytes := 0, ledger_read_bytes := 0
        ledger_write_bytes := 0, transaction_size_bytes := 0 }
  .ok { resources := resources
        transaction_hash := none
        latest_ledger := rpc_result.latest_ledger
        cost_stroops := calculate_cost resources
        state_dependency := none }

/-- JSON-RPC error mapping of `simulate_transaction_single`: recognized
codes get dedicated variants and messages; everything else becomes a generic
request failure. -/
def rpc_error_to_simulation_error (code : Int) (message : String) : SimulationError :=
  if code = -32600 then .nodeError "Invalid request format"
  else if code = -32601 then .rpcRequestFailed "Method not found"
  else if code = -32602 then .nodeError ("Invalid parameters: " ++ message)
  else if code = -32603 then .rpcRequestFailed ("Internal error: " ++ message)
  else .rpcRequestFailed ("RPC error " ++ toString code ++ ": " ++ message)

/-- Body-level outcome of one `simulateTransaction` call: the error mapping
on an error response, result parsing on success. -/
def handle_rpc_response (b64decode : String → Option (List Nat))
    (sorobanDataP : List Nat → Option Footprint) :
    ResponseResult → Except SimulationError SimulationResult
  | .error e => .error (rpc_error_to_simulation_error e.code e.message)
  | .success r => parse_simulation_result b64decode sorobanDataP r

end SimulationEngine

-- ── Provider registry (`src/core/src/rpc_provider.rs`) ───────────────────────

namespace ProviderRegistry

/-- Consecutive failures before a provider is tripped. -/
def CIRCUIT_BREAKER_THRESHOLD : Nat := 3

/-- Cool-down in seconds (five minutes); instants are modelled as seconds. -/
def CIRCUIT_BREAKER_COOLDOWN : Nat := 300

/-- Retry classification of HTTP statuses
(`ProviderRegistry::is_retryable_status`). -/
def is_retryable_status (status : Nat) : Bool :=
  status == 429 || 500 ≤ status

/-- Runtime health state of one provider (`ProviderState`); `tripped_at` is
the trip instant in seconds. -/
structure ProviderState where
  provider : RpcProvider
  consecutive_failures : Nat
  tripped_at : Option Nat
  latest_ledger : Nat
deriving DecidableEq

/-- Fresh state for every provider, in the given priority order
(`ProviderRegistry::new`). -/
def initRegistry (providers : List RpcProvider) : List ProviderState :=
  providers.map (fun p =>
    { provider := p, consecutive_failures := 0, tripped_at := none, latest_ledger := 0 })

/-- Apply `f` to the first state matching `pred`, leaving the rest unchanged
(models `find_by_url` followed by a mutation; unknown urls are a no-op). -/
def updateFirst (pred : ProviderState → Bool) (f : ProviderState → ProviderState) :
    List ProviderState → List ProviderState
  | [] => []
  | s :: rest => if pred s then f s :: rest else s :: updateFirst pred f rest

/-- `ProviderRegistry::report_success`: reset the failure counter and clear
the trip on the first provider with the given url. -/
def report_success (url : String) (states : List ProviderState) : List ProviderState :=
  updateFirst (fun s => s.provider.url == url)
    (fun s => { s with consecutive_failures := 0, tripped_at := none }) states

/-- `ProviderRegistry::report_failure` at instant `now`: increment the
counter, and when the new count reaches the threshold set `tripped_at := now`
(unconditionally — a tripped provider is re-stamped). -/
def report_failure (url : String) (now : Nat) (states : List ProviderState) :
    List ProviderState :=
  updateFirst (fun s => s.provider.url == url)
    (fun s =>
      let n := s.consecutive_failures + 1
      { s with consecutive_failures := n,
               tripped_at := if CIRCUIT_BREAKER_THRESHOLD ≤ n then some now else s.tripped_at })
    states

/-- `ProviderRegistry::is_available` at instant `now`: not tripped, or the
cool-down has elapsed. -/
def is_available (now : Nat) (s : ProviderState) : Bool :=
  match s.tripped_at with
  | none => true
  | some t => CIRCUIT_BREAKER_COOLDOWN ≤ now - t

/-- `ProviderRegistry::healthy_providers` at instant `now`: available
providers in priority order. -/
def healthy_providers (now : Nat) (states : List ProviderState) : List RpcProvider :=
  (states.filter (is_available now)).map (fun s => s.provider)

/-- One provider's update in `run_health_checks`: a successful probe stores
the ledger number, zeroes the counter and clears the trip; a failed probe
counts like `report_failure`. -/
def health_check_update (s : ProviderState) (probe : Option Nat) (now : Nat) :
    ProviderState :=
  match probe with
  | some ledger =>
    { s with latest_ledger := ledger, consecutive_failures := 0, tripped_at := none }
  | none =>
    let n := s.consecutive_failures + 1
    { s with consecutive_failures := n,
             tripped_at := if CIRCUIT_BREAKER_THRESHOLD ≤ n then some now else s.tripped_at }

/-- `ProviderRegistry::run_health_checks` at instant `now`, with the probe
outcome of each provider supplied positionally. -/
def run_health_checks (states : List ProviderState) (probes : List (Option Nat))
    (now : Nat) : List ProviderState :=
  List.zipWith (fun s probe => health_check_update s probe now) states probes

end ProviderRegistry

-- ── Failover dispatch (`simulate_transaction_with_failover`) ─────────────────

namespace SimulationEngine

/-- Non-empty whitespace-separated tokens of a character list (models
`str::split_whitespace`; Lean classifies ASCII whitespace, which covers every
message the engine constructs). -/
def wsTokens : List Char → List Char → List (List Char)
  | [], acc => if acc.isEmpty then [] else [acc.reverse]
  | c :: rest, acc =>
    if c.isWhitespace then
      if acc.isEmpty then wsTokens rest [] else acc.reverse :: wsTokens rest []
    else wsTokens rest (c :: acc)

/-- The last whitespace-separated token of a string
(`msg.split_whitespace().last()`). -/
def lastWhitespaceToken (s : String) : Option String :=
  ((wsTokens s.data []).map (fun cs => String.mk cs)).getLast?

/-- Retry classification of one failed attempt, exactly as in the failover
loop: timeouts and transport errors always retry; an `RpcRequestFailed`
whose message starts with `HTTP error:` retries when its last token parses
as a `u16` with a retryable status; everything else does not retry. -/
def should_retry : SimulationError → Bool
  | .nodeTimeout => true
  | .networkError _ => true
  | .rpcRequestFailed msg =>
    if strStarts msg "HTTP error:" then
      match lastWhitespaceToken msg with
      | some tok =>
        match parseU16 tok with
        | some status => ProviderRegistry.is_retryable_status status
        | none => false
      | none => false
    else false
  | _ => false

/-- Loop body of `simulate_transaction_with_failover` over the snapshot of
healthy providers.  `attempt` gives each provider's single-call outcome
(`simulate_transaction_single`, whose network I/O is external).  The first
component of the result instruments which providers were actually sent the
request, in order; the second is the value the source returns.  The
`report_success`/`report_failure` registry updates do not influence either
component (the provider list was snapshotted up front) and are elided. -/
def failover_go (attempt : RpcProvider → Except SimulationError SimulationResult) :
    List RpcProvider → Option SimulationError →
    List String × Except SimulationError SimulationResult
  | [], lastError =>
    ([], .error (lastError.getD (.rpcRequestFailed "All providers exhausted")))
  | p :: rest, _ =>
    match attempt p with
    | .ok result => ([p.url], .ok result)
    | .error e =>
      if should_retry e then
        let next := failover_go attempt rest (some e)
        (p.url :: next.1, next.2)
      else ([p.url], .error e)

/-- `simulate_transaction_with_failover`, given the healthy-provider
snapshot: an empty pool short-circuits with the unavailable error, otherwise
providers are tried in priority order. -/
def simulate_transaction_with_failover
    (attempt : RpcProvider → Except SimulationError SimulationResult)
    (providers : List RpcProvider) :
    List String × Except SimulationError SimulationResult :=
  if providers.isEmpty then
    ([], .error (.rpcRequestFailed
      "All RPC providers are unavailable (circuit breaker tripped)"))
  else failover_go attempt providers none

-- ── Envelope construction (`build_invoke_host_function_transaction`) ─────────

/-- Host function payload.  The engine only ever builds the
invoke-contract form (`create_invoke_transaction`); the other union arms of
`HostFunction` are not constructed in the source. -/
inductive HostFunction where
  | invokeContract (contract_address : ScAddress) (function_name : List Nat)
      (args : List ScVal)

/-- XDR encoding of the host function: discriminant 0 (invoke contract),
the contract address, the function symbol, and the argument vector. -/
def hostFunctionXdr : HostFunction → List Nat
  | .invokeContract addr fname args =>
    u32BE 0 ++ scAddressXdr addr ++ xdrOpaque fname ++
      u32BE args.length ++ scValListXdr args

/-- Canonical XDR bytes of the unsigned invocation envelope
(`build_invoke_host_function_transaction` before its base-64 step): a
`TransactionV1Envelope` with zeroed ed25519 source, fee 100, sequence 0, no
preconditions, no memo, one invoke-host-function operation (discriminant
24) without an operation source, the given pre-encoded auth entries, ext V0
and no signatures.  The source returns the base-64 rendering of exactly
these bytes. -/
def build_invoke_host_function_transaction_xdr (host_function : HostFunction)
    (auth : List (List Nat)) : List Nat :=
  let invoke_op := hostFunctionXdr host_function ++ u32BE auth.length ++ auth.flatten
  let operation := u32BE 0 ++ u32BE 24 ++ invoke_op
  let tx :=
    (u32BE 0 ++ List.replicate 32 0) ++    -- MuxedAccount::Ed25519([0u8; 32])
    u32BE 100 ++                           -- fee
    i64BE 0 ++                             -- sequence number
    u32BE 0 ++                             -- Preconditions::None
    u32BE 0 ++                             -- Memo::None
    u32BE 1 ++ operation ++                -- operations, length 1
    u32BE 0                                -- TransactionExt::V0
  tx ++ u32BE 0                            -- empty signature vector

-- ── Per-argument dispatch (`parse_sc_val_arg`) ───────────────────────────────

/-- Rust `str::trim` (Lean classifies ASCII whitespace, which covers the
engine's inputs of interest). -/
def rustTrim (s : String) : String :=
  String.mk (((s.data.dropWhile Char.isWhitespace).reverse.dropWhile
    Char.isWhitespace).reverse)

/-- `SimulationEngine::parse_sc_val_arg`: trim; JSON documents for `{`/`[`;
boolean and void shorthands; for `G`/`C`/`:`/`0x` heads a quoted-string
round-trip through the argument parser whose failure is swallowed; numbers
and explicitly quoted strings through the argument parser, failure also
swallowed; and finally the symbol fallback, whose only failure mode is the
32-byte `ScSymbol` bound. -/
def parse_sc_val_arg (jsonP : String → Except String Json)
    (strkeyP : List Nat → Option ScAddress) (arg0 : String) :
    Except SimulationError ScVal :=
  let arg := rustTrim arg0
  if strStarts arg "\x7b" || strStarts arg "[" then
    match ArgParser.parse jsonP strkeyP arg with
    | .ok v => .ok v
    | .error e => .error (.parseError e)
  else if arg.data = "true".data then .ok (.scvBool true)
  else if arg.data = "false".data then .ok (.scvBool false)
  else if arg.data = "void".data ∨ arg.data = "()".data then .ok .scvVoid
  else
    let step3 : Option ScVal :=
      if strStarts arg "G" || strStarts arg "C" || strStarts arg ":" ||
          strStarts arg "0x" then
        (ArgParser.parse jsonP strkeyP ("\"" ++ arg ++ "\"")).toOption
      else none
    match step3 with
    | some v => .ok v
    | none =>
      let step4 : Option ScVal :=
        if strStarts arg "\"" || (parseI64 arg).isSome || (parseU64 arg).isSome then
          (ArgParser.parse jsonP strkeyP arg).toOption
        else none
      match step4 with
      | some v => .ok v
      | none =>
        if rustLen arg ≤ 32 then .ok (.scvSymbol (strBytes arg))
        else .error (.nodeError ("Cannot parse argument: " ++ arg))

end SimulationEngine

-- ── Insights engine (`src/core/src/insights.rs`) ─────────────────────────────

/-- Severity of an insight. -/
inductive Severity where
  | info
  | warning
  | critical
deriving DecidableEq

/-- One insight (`Insight`).  The `message` field is elided: it interpolates
`f64` renderings and is inspected by no claim; `rule` and `suggested_fix`
are kept verbatim. -/
structure Insight where
  severity : Severity
  rule : String
  suggested_fix : String
deriving DecidableEq

/-- Insights report (`InsightsReport`). -/
structure InsightsReport where
  efficiency_score : Nat
  insights : List Insight
deriving DecidableEq

namespace StorageEfficiencyRule

/-- Rule name. -/
def name : String := "storage_efficiency"

/-- `StorageEfficiencyRule::evaluate`.  The source compares the `f64` ratio
`write / tx` against 2.0 and 1.0; over the `u64` range of interest that is
the exact rational comparison `write > 2 * tx` (resp. `write > tx`), which
is how it is embedded. -/
def evaluate (r : SorobanResources) : List Insight :=
  if r.transaction_size_bytes = 0 then []
  else if 2 * r.transaction_size_bytes < r.ledger_write_bytes then
    [{ severity := .critical, rule := name,
       suggested_fix := "Use temporary storage (TTL entries) for ephemeral data and batch writes where possible." }]
  else if r.transaction_size_bytes < r.ledger_write_bytes then
    [{ severity := .warning, rule := name,
       suggested_fix := "Consolidate writes into fewer ledger keys or use compact serialization." }]
  else []

end StorageEfficiencyRule

namespace InstructionDensityRule

/-- Rule name. -/
def name : String := "instruction_density"

/-- `InstructionDensityRule::evaluate`. -/
def evaluate (r : SorobanResources) : List Insight :=
  let total_ledger := (r.ledger_read_bytes + r.ledger_write_bytes) % u64Size
  if 50000000 < r.cpu_instructions ∧ total_ledger < 1024 then
    [{ severity := .critical, rule := name,
       suggested_fix := "Cache intermediate results in persistent storage or move complex calculations off-chain with on-chain verification." }]
  else if 10000000 < r.cpu_instructions ∧ total_ledger < 2048 then
    [{ severity := .warning, rule := name,
       suggested_fix := "Profile the contract to identify hot loops; consider lookup tables or pre-computed values." }]
  else []

end InstructionDensityRule

namespace FootprintBloatRule

/-- Rule name. -/
def name : String := "footprint_bloat"

/-- `FootprintBloatRule::evaluate`: estimate the key count as total
footprint bytes over 60. -/
def evaluate (r : SorobanResources) : List Insight :=
  let estimated_keys := ((r.ledger_read_bytes + r.ledger_write_bytes) % u64Size) / 60
  if 20 < estimated_keys then
    [{ severity := .critical, rule := name,
       suggested_fix := "Split the operation into smaller batches or reduce the number of distinct storage keys accessed per invocation." }]
  else if 10 < estimated_keys then
    [{ severity := .warning, rule := name,
       suggested_fix := "Consider consolidating related data into fewer keys (e.g., a single Map entry instead of many individual keys)." }]
  else []

end FootprintBloatRule

namespace MemoryPressureRule

/-- Rule name. -/
def name : String := "memory_pressure"

/-- `MemoryPressureRule::evaluate`. -/
def evaluate (r : SorobanResources) : List Insight :=
  if 20 * 1024 * 1024 < r.ram_bytes then
    [{ severity := .critical, rule := name,
       suggested_fix := "Reduce in-memory data structures; process data in streaming fashion rather than loading everything at once." }]
  else if 5 * 1024 * 1024 < r.ram_bytes then
    [{ severity := .warning, rule := name,
       suggested_fix := "Review large allocations; consider lazy initialization or smaller buffers." }]
  else []

end MemoryPressureRule

namespace InsightsEngine

/-- Severity deduction of one insight in `compute_efficiency_score`. -/
def severityPenalty : Severity → Int
  | .critical => 20
  | .warning => 10
  | .info => 3

/-- `InsightsEngine::compute_efficiency_score`: start at 100, deduct per
insight, apply graduated absolute-resource penalties, clamp to `[0, 100]`
(the `i32` cannot overflow for the bounded built-in rule set). -/
def compute_efficiency_score (resources : SorobanResources)
    (insights : List Insight) : Nat :=
  let score : Int := 100 - (insights.map (fun i => severityPenalty i.severity)).sum
  let score := score -
    (if 50000000 < resources.cpu_instructions then 10
     else if 10000000 < resources.cpu_instructions then 5 else 0)
  let score := score -
    (if 20 * 1024 * 1024 < resources.ram_bytes then 10
     else if 5 * 1024 * 1024 < resources.ram_bytes then 5 else 0)
  let total_ledger := (resources.ledger_read_bytes + resources.ledger_write_bytes) % u64Size
  let score := score -
    (if 100 * 1024 < total_ledger then 10
     else if 50 * 1024 < total_ledger then 5 else 0)
  (max 0 (min 100 score)).toNat

/-- `InsightsEngine::analyze` with the built-in rule set of
`InsightsEngine::new`, in registration order: storage efficiency,
instruction density, footprint bloat, memory pressure. -/
def analyze (resources : SorobanResources) : InsightsReport :=
  let insights :=
    StorageEfficiencyRule.evaluate resources ++
    InstructionDensityRule.evaluate resources ++
    FootprintBloatRule.evaluate resources ++
    MemoryPressureRule.evaluate resources
  { efficiency_score := compute_efficiency_score resources insights
    insights := insights }

end InsightsEngine

-- ── Cost model registry (`src/core/src/network_config.rs`) ───────────────────

/-- Network-level cost parameters (`NetworkConfig`). -/
structure NetworkConfig where
  name : String
  protocol_version : Nat
  cpu_insns_per_fee_unit : Nat
  mem_bytes_per_fee_unit : Nat
  ledger_bytes_per_fee_unit : Nat
  tx_size_bytes_per_fee_unit : Nat
  tx_max_instructions : Nat
  tx_max_memory_bytes : Nat
  tx_max_read_bytes : Nat
  tx_max_write_bytes : Nat
  tx_max_size_bytes : Nat
deriving DecidableEq

namespace NetworkConfig

/-- `NetworkConfig::calculate_cost`: the four per-resource quotients, summed
in `u64` arithmetic.  The read+write addition and the final sum both carry
the `u64` wrap. -/
def calculate_cost (cfg : NetworkConfig) (r : SorobanResources) : Nat :=
  let cpu_fee := r.cpu_instructions / cfg.cpu_insns_per_fee_unit
  let mem_fee := r.ram_bytes / cfg.mem_bytes_per_fee_unit
  let ledger_fee := ((r.ledger_read_bytes + r.ledger_write_bytes) % u64Size) /
    cfg.ledger_bytes_per_fee_unit
  let size_fee := r.transaction_size_bytes / cfg.tx_size_bytes_per_fee_unit
  (cpu_fee + mem_fee + ledger_fee + size_fee) % u64Size

end NetworkConfig

/-- The protocol 21 baseline schedule. -/
def protocol_21 : NetworkConfig :=
  { name := "Protocol 21 (Current Testnet)"
    protocol_version := 21
    cpu_insns_per_fee_unit := 10000
    mem_bytes_per_fee_unit := 1024
    ledger_bytes_per_fee_unit := 1024
    tx_size_bytes_per_fee_unit := 1024
    tx_max_instructions := 100000000
    tx_max_memory_bytes := 40 * 1024 * 1024
    tx_max_read_bytes := 200 * 1024
    tx_max_write_bytes := 65536
    tx_max_size_bytes := 71680 }

/-- The protocol 22 shadow schedule. -/
def protocol_22 : NetworkConfig :=
  { name := "Protocol 22 (Upcoming/Next)"
    protocol_version := 22
    cpu_insns_per_fee_unit := 12500
    mem_bytes_per_fee_unit := 1024
    ledger_bytes_per_fee_unit := 768
    tx_size_bytes_per_fee_unit := 1024
    tx_max_instructions := 200000000
    tx_max_memory_bytes := 64 * 1024 * 1024
    tx_max_read_bytes := 200 * 1024
    tx_max_write_bytes := 131072
    tx_max_size_bytes := 71680 }

/-- The custom / private network schedule. -/
def custom_private : NetworkConfig :=
  { name := "Custom Private Network"
    protocol_version := 21
    cpu_insns_per_fee_unit := 10000
    mem_bytes_per_fee_unit := 1024
    ledger_bytes_per_fee_unit := 1024
    tx_size_bytes_per_fee_unit := 1024
    tx_max_instructions := 500000000
    tx_max_memory_bytes := 128 * 1024 * 1024
    tx_max_read_bytes := 1024 * 1024
    tx_max_write_bytes := 512 * 1024
    tx_max_size_bytes := 256 * 1024 }

-- ── General lemmas: lexicographic byte order and the stable sort ─────────────

theorem bytesLe_total : ∀ a b : List Nat, bytesLe a b = true ∨ bytesLe b a = true
  | [], _ => by left; rfl
  | _ :: _, [] => by right; rfl
  | a :: as, b :: bs => by
    by_cases hab : a < b
    · left; simp [bytesLe, hab]
    · by_cases hba : b < a
      · right; simp [bytesLe, hba, Nat.lt_asymm hba]
      · have hab2 : a = b := Nat.le_antisymm (Nat.le_of_not_lt hba) (Nat.le_of_not_lt hab)
        subst hab2
        rcases bytesLe_total as bs with h | h
        · left; simp [bytesLe, h]
        · right; simp [bytesLe, h]

theorem bytesLe_trans : ∀ a b c : List Nat,
    bytesLe a b = true → bytesLe b c = true → bytesLe a c = true
  | [], _, _, _, _ => rfl
  | _ :: _, [], _, h, _ => by simp [bytesLe] at h
  | _ :: _, _ :: _, [], _, h => by simp [bytesLe] at h
  | a :: as, b :: bs, c :: cs, hab, hbc => by
    simp only [bytesLe] at hab hbc ⊢
    by_cases h1 : a < b
    · by_cases h2 : b < c
      · simp [Nat.lt_trans h1 h2]
      · by_cases h3 : c < b
        · simp [bytesLe] at hbc; omega
        · have : b = c := by omega
          subst this; simp [h1]
    · by_cases h4 : b < a
      · simp [h1, h4] at hab
      · have : a = b := by omega
        subst this
        by_cases h2 : a < c
        · simp [h2]
        · by_cases h3 : c < a
          · simp [bytesLe, h3, Nat.lt_asymm h3] at hbc
          · have : a = c := by omega
            subst this
            simp only [Nat.lt_irrefl, if_false] at hab hbc ⊢
            exact bytesLe_trans as bs cs hab hbc

theorem bytesLt_of_le_of_ne : ∀ a b : List Nat,
    bytesLe a b = true → a ≠ b → bytesLt a b = true
  | [], [], _, hne => absurd rfl hne
  | [], _ :: _, _, _ => rfl
  | _ :: _, [], h, _ => by simp [bytesLe] at h
  | a :: as, b :: bs, hle, hne => by
    simp only [bytesLe] at hle
    simp only [bytesLt]
    by_cases h1 : a < b
    · simp [h1]
    · by_cases h2 : b < a
      · simp [h1, h2] at hle
      · have : a = b := by omega
        subst this
        simp only [Nat.lt_irrefl, if_false] at hle ⊢
        exact bytesLt_of_le_of_ne as bs hle (by intro h; exact hne (by rw [h]))

theorem mem_insertBy {le : α → α → Bool} {x a : α} :
    ∀ {l : List α}, a ∈ insertBy le x l → a = x ∨ a ∈ l := by
  intro l
  induction l with
  | nil => intro h; simp [insertBy] at h; exact Or.inl h
  | cons y ys ih =>
    intro h
    simp only [insertBy] at h
    by_cases hc : le x y
    · simp [hc] at h
      rcases h with h | h | h
      · exact Or.inl h
      · exact Or.inr (by simp [h])
      · exact Or.inr (by simp [h])
    · simp [hc] at h
      rcases h with h | h
      · exact Or.inr (by simp [h])
      · rcases ih h with h | h
        · exact Or.inl h
        · exact Or.inr (by simp [h])

theorem insertBy_perm (le : α → α → Bool) (x : α) :
    ∀ l : List α, (insertBy le x l).Perm (x :: l)
  | [] => List.Perm.refl _
  | y :: ys => by
    simp only [insertBy]
    by_cases hc : le x y
    · simp [hc]
    · simp only [hc, if_false]
      exact ((insertBy_perm le x ys).cons y).trans (List.Perm.swap x y ys)

theorem pairwise_insertBy {le : α → α → Bool}
    (htrans : ∀ a b c, le a b = true → le b c = true → le a c = true)
    (htotal : ∀ a b, le a b = true ∨ le b a = true) (x : α) :
    ∀ {l : List α}, l.Pairwise (fun a b => le a b = true) →
      (insertBy le x l).Pairwise (fun a b => le a b = true) := by
  intro l
  induction l with
  | nil => intro _; simp [insertBy]
  | cons y ys ih =>
    intro hp
    rcases List.pairwise_cons.mp hp with ⟨hy, hys⟩
    simp only [insertBy]
    by_cases hc : le x y
    · simp only [hc, if_true]
      refine List.pairwise_cons.mpr ⟨?_, hp⟩
      intro b hb
      rcases hb with _ | hb
      · exact hc
      · exact htrans x y b hc (hy b (by assumption))
    · simp only [hc, if_false]
      refine List.pairwise_cons.mpr ⟨?_, ih hys⟩
      · intro b hb
        rcases mem_insertBy hb with h | h
        · rw [h]
          rcases htotal x y with h2 | h2
          · exact absurd h2 hc
          · exact h2
        · exact hy b h

theorem sortBy_perm (le : α → α → Bool) : ∀ l : List α, (sortBy le l).Perm l
  | [] => List.Perm.refl _
  | x :: xs =>
    (insertBy_perm le x (sortBy le xs)).trans ((sortBy_perm le xs).cons x)

theorem pairwise_sortBy {le : α → α → Bool}
    (htrans : ∀ a b c, le a b = true → le b c = true → le a c = true)
    (htotal : ∀ a b, le a b = true ∨ le b a = true) :
    ∀ l : List α, (sortBy le l).Pairwise (fun a b => le a b = true)
  | [] => by simp [sortBy]
  | x :: xs => pairwise_insertBy htrans htotal x (pairwise_sortBy htrans htotal xs)

-- ── Symbol-encoding injectivity ──────────────────────────────────────────────

theorem u32BE_small {n : Nat} (h : n < 256) : u32BE n = [0, 0, 0, n] := by
  simp only [u32BE]
  congr 1
  · rw [Nat.div_eq_of_lt (by omega)]
  · congr 1
    · rw [Nat.div_eq_of_lt (by omega)]
    · congr 1
      · rw [Nat.div_eq_of_lt (by omega)]
      · rw [Nat.mod_eq_of_lt h]

theorem symbolXdr_inj {k1 k2 : List Nat} (h1 : k1.length ≤ 32) (h2 : k2.length ≤ 32)
    (h : scValXdr (.scvSymbol k1) = scValXdr (.scvSymbol k2)) : k1 = k2 := by
  simp only [scValXdr, xdrOpaque, pad4] at h
  have h' := List.append_cancel_left h
  have hlen4 : (u32BE k1.length).length = (u32BE k2.length).length := by
    simp [u32BE]
  rcases List.append_inj h' hlen4 with ⟨hlen, hrest⟩
  rw [u32BE_small (by omega), u32BE_small (by omega)] at hlen
  have hll : k1.length = k2.length := by
    simp at hlen
    exact hlen
  rcases List.append_inj hrest hll with ⟨hk, _⟩
  exact hk

-- ── Parser lemmas ────────────────────────────────────────────────────────────

theorem parse_object_spec (strkeyP : List Nat → Option ScAddress) :
    ∀ (entries : List (List Nat × Json)) (path : List Nat)
      (es : List (ScVal × ScVal)),
      ArgParser.parse_object strkeyP entries path = .ok es →
      es.map Prod.fst = entries.map (fun kv => ScVal.scvSymbol kv.1) ∧
      ∀ kv ∈ entries, kv.1.length ≤ 32 := by
  intro entries
  induction entries with
  | nil =>
    intro path es h
    simp only [ArgParser.parse_object] at h
    cases h
    simp
  | cons kv rest ih =>
    intro path es h
    obtain ⟨k, v⟩ := kv
    simp only [ArgParser.parse_object] at h
    by_cases hk : k.length ≤ 32
    · rw [if_pos hk] at h
      cases hpv : ArgParser.parse_value strkeyP v (path ++ [46] ++ k) with
      | error e => rw [hpv] at h; cases h
      | ok val =>
        rw [hpv] at h
        cases hpo : ArgParser.parse_object strkeyP rest path with
        | error e => rw [hpo] at h; cases h
        | ok out =>
          rw [hpo] at h
          cases h
          obtain ⟨ih1, ih2⟩ := ih path out hpo
          refine ⟨by simp [ih1], ?_⟩
          intro kv hkv
          rcases List.mem_cons.mp hkv with h | h
          · rw [h]; exact hk
          · exact ih2 kv h
    · rw [if_neg hk] at h; cases h

/-- C7.  For every JSON object accepted by the argument parser (object keys
are unique, as `serde_json` maps guarantee), the entries of the resulting
`Map` value are sorted strictly ascending by the canonical XDR byte encoding
of their `Symbol` keys. -/
theorem claim_C7_map_entries_sorted (strkeyP : List Nat → Option ScAddress)
    (obj : List (List Nat × Json)) (path : List Nat) (m : List (ScVal × ScVal))
    (hnodup : (obj.map Prod.fst).Nodup)
    (h : ArgParser.parse_value strkeyP (.obj obj) path = .ok (.scvMap (some m))) :
    m.Pairwise (fun a b => bytesLt (scValXdr a.1) (scValXdr b.1) = true) := by
  simp only [ArgParser.parse_value] at h
  cases hpo : ArgParser.parse_object strkeyP obj path with
  | error e => rw [hpo] at h; cases h
  | ok es =>
    rw [hpo] at h
    dsimp only at h
    by_cases hlen : es.length ≤ u32Max
    · rw [if_pos hlen] at h
      cases h
      obtain ⟨hkeys, hbounds⟩ := parse_object_spec strkeyP obj path es hpo
      have htrans : ∀ a b c : ScVal × ScVal,
          bytesLe (scValXdr a.1) (scValXdr b.1) = true →
          bytesLe (scValXdr b.1) (scValXdr c.1) = true →
          bytesLe (scValXdr a.1) (scValXdr c.1) = true :=
        fun a b c hab hbc => bytesLe_trans _ _ _ hab hbc
      have htotal : ∀ a b : ScVal × ScVal,
          bytesLe (scValXdr a.1) (scValXdr b.1) = true ∨
          bytesLe (scValXdr b.1) (scValXdr a.1) = true :=
        fun a b => bytesLe_total _ _
      have hsorted := pairwise_sortBy htrans htotal es
      have hmapeq : es.map (fun e => scValXdr e.1) =
          obj.map (fun kv => scValXdr (ScVal.scvSymbol kv.1)) := by
        have h1 : es.map (fun e => scValXdr e.1) = (es.map Prod.fst).map scValXdr := by
          simp [List.map_map]
        rw [h1, hkeys, List.map_map]
        rfl
      have hobjpair : obj.Pairwise (fun kv1 kv2 : List Nat × Json => kv1.1 ≠ kv2.1) := by
        have hnd : (obj.map Prod.fst).Pairwise (fun a b : List Nat => a ≠ b) := hnodup
        exact List.pairwise_map.mp hnd
      have hencpair : obj.Pairwise (fun kv1 kv2 : List Nat × Json =>
          scValXdr (ScVal.scvSymbol kv1.1) ≠ scValXdr (ScVal.scvSymbol kv2.1)) := by
        refine List.Pairwise.imp_of_mem ?_ hobjpair
        intro kv1 kv2 hm1 hm2 hne heq
        exact hne (symbolXdr_inj (hbounds kv1 hm1) (hbounds kv2 hm2) heq)
      have hesnodup : (es.map (fun e => scValXdr e.1)).Nodup := by
        rw [hmapeq]
        exact List.pairwise_map.mpr hencpair
      have hsortnodup :
          ((sortBy (fun a b => bytesLe (scValXdr a.1) (scValXdr b.1)) es).map
            (fun e => scValXdr e.1)).Nodup := by
        have hperm := (sortBy_perm
          (fun a b : ScVal × ScVal => bytesLe (scValXdr a.1) (scValXdr b.1)) es).map
          (fun e => scValXdr e.1)
        exact (hperm.nodup_iff).mpr hesnodup
      have hne : (sortBy (fun a b => bytesLe (scValXdr a.1) (scValXdr b.1)) es).Pairwise
          (fun a b => scValXdr a.1 ≠ scValXdr b.1) :=
        List.pairwise_map.mp hsortnodup
      exact (hsorted.and hne).imp (fun hab => bytesLt_of_le_of_ne _ _ hab.1 hab.2)
    · rw [if_neg hlen] at h; cases h

/-- Witness for C7 at the concrete object with keys `bb` and `a`: the parser
accepts it and emits the entries sorted by encoded key (`a` first — its
4-byte length prefix is smaller). -/
theorem claim_C7_witness :
    (([(strBytes "bb", Json.num 1), (strBytes "a", Json.num 2)].map Prod.fst).Nodup) ∧
    ([(ScVal.scvSymbol (strBytes "a"), ScVal.scvI64 2),
      (ScVal.scvSymbol (strBytes "bb"), ScVal.scvI64 1)]).Pairwise
        (fun a b => bytesLt (scValXdr a.1) (scValXdr b.1) = true) :=
  ⟨by decide,
   claim_C7_map_entries_sorted (fun _ => none)
     [(strBytes "bb", Json.num 1), (strBytes "a", Json.num 2)] (strBytes "$")
     [(ScVal.scvSymbol (strBytes "a"), ScVal.scvI64 2),
      (ScVal.scvSymbol (strBytes "bb"), ScVal.scvI64 1)] (by decide) rfl⟩

/-- C6, counterexample.  The claim says a `:` string with an empty remainder
fails with `InvalidSymbol`; the code accepts it as the empty symbol (the
`ScSymbol` conversion checks only the 32-byte bound). -/
theorem claim_C6_counterexample :
    ArgParser.parse_value (fun _ => none) (Json.str [58]) (strBytes "$") =
      Except.ok (ScVal.scvSymbol []) ∧
    ArgParser.parse_value (fun _ => none) (Json.str [58]) (strBytes "$") ≠
      Except.error (ParserError.invalidSymbol (strBytes "$")
        (strBytes "Symbol must be 1-32 characters")) :=
  ⟨rfl, fun h => Except.noConfusion h⟩

/-- C6, amended.  For every string beginning with `:` (byte 58), the parser
returns `Symbol(rest)` exactly when the remainder is at most 32 bytes long —
the remainder may be empty and may contain any byte — and fails with
`InvalidSymbol` only when the remainder is longer than 32 bytes. -/
theorem claim_C6_amended (strkeyP : List Nat → Option ScAddress)
    (rest path : List Nat) :
    ArgParser.parse_value strkeyP (.str (58 :: rest)) path =
      (if rest.length ≤ 32 then Except.ok (ScVal.scvSymbol rest)
       else Except.error (ParserError.invalidSymbol path
         (strBytes "Symbol must be 1-32 characters"))) := by
  have hc : ¬ (((58 :: rest).take 1 = [71] ∨ (58 :: rest).take 1 = [67]) ∧
      (58 :: rest).length = 56) := by simp
  simp [ArgParser.parse_value, ArgParser.parse_value_string, hc]

-- ── C2: insights on the write-heavy record ───────────────────────────────────

/-- C2, counterexample.  On `Resources{cpu:0, ram:0, read:0, write:5000,
tx:1024}` the insights engine produces two findings, not exactly one: the
footprint-bloat rule also fires (`5000 / 60 = 83 > 20` estimated keys). -/
theorem claim_C2_counterexample :
    (InsightsEngine.analyze (SorobanResources.mk 0 0 0 5000 1024)).insights.length = 2 ∧
    (InsightsEngine.analyze (SorobanResources.mk 0 0 0 5000 1024)).insights.length ≠ 1 := by
  decide

/-- C2, amended.  On `Resources{cpu:0, ram:0, read:0, write:5000, tx:1024}`
the insights engine produces exactly two findings: first a `Critical` from
`storage_efficiency`, then a `Critical` from `footprint_bloat`. -/
theorem claim_C2_amended :
    (InsightsEngine.analyze (SorobanResources.mk 0 0 0 5000 1024)).insights.map
      (fun i => (i.rule, i.severity)) =
    [("storage_efficiency", Severity.critical), ("footprint_bloat", Severity.critical)] := by
  decide

-- ── Provider registry lemmas ─────────────────────────────────────────────────

theorem updateFirst_append_not {pred : ProviderRegistry.ProviderState → Bool}
    {f : ProviderRegistry.ProviderState → ProviderRegistry.ProviderState} :
    ∀ {l1 l2 : List ProviderRegistry.ProviderState}, (∀ s ∈ l1, pred s = false) →
      ProviderRegistry.updateFirst pred f (l1 ++ l2) =
        l1 ++ ProviderRegistry.updateFirst pred f l2 := by
  intro l1
  induction l1 with
  | nil => intro l2 _; simp
  | cons s rest ih =>
    intro l2 h
    have hs : pred s = false := h s (by simp)
    simp only [List.cons_append, ProviderRegistry.updateFirst, hs]
    simp only [Bool.false_eq_true, if_false, List.cons.injEq, true_and]
    exact ih (fun q hq => h q (by simp [hq]))

theorem updateFirst_cons_true {pred : ProviderRegistry.ProviderState → Bool}
    {f : ProviderRegistry.ProviderState → ProviderRegistry.ProviderState}
    {s : ProviderRegistry.ProviderState} {l : List ProviderRegistry.ProviderState}
    (h : pred s = true) :
    ProviderRegistry.updateFirst pred f (s :: l) = f s :: l := by
  simp [ProviderRegistry.updateFirst, h]

theorem healthy_providers_append (now : Nat)
    (l1 l2 : List ProviderRegistry.ProviderState) :
    ProviderRegistry.healthy_providers now (l1 ++ l2) =
      ProviderRegistry.healthy_providers now l1 ++
        ProviderRegistry.healthy_providers now l2 := by
  simp [ProviderRegistry.healthy_providers, List.filter_append]

theorem healthy_providers_init (now : Nat) (xs : List RpcProvider) :
    ProviderRegistry.healthy_providers now (ProviderRegistry.initRegistry xs) = xs := by
  induction xs with
  | nil => rfl
  | cons q rest ih =>
    simp only [ProviderRegistry.initRegistry, List.map_cons,
      ProviderRegistry.healthy_providers, List.filter_cons] at ih ⊢
    simpa [ProviderRegistry.is_available] using ih

theorem healthy_providers_cons (now : Nat) (s : ProviderRegistry.ProviderState)
    (l : List ProviderRegistry.ProviderState) :
    ProviderRegistry.healthy_providers now (s :: l) =
      if ProviderRegistry.is_available now s then
        s.provider :: ProviderRegistry.healthy_providers now l
      else ProviderRegistry.healthy_providers now l := by
  simp only [ProviderRegistry.healthy_providers, List.filter_cons]
  by_cases h : ProviderRegistry.is_available now s <;> simp [h]

theorem initRegistry_pred_false {pre : List RpcProvider} {p : RpcProvider}
    (hpre : ∀ q ∈ pre, q.url ≠ p.url) :
    ∀ s ∈ ProviderRegistry.initRegistry pre, (s.provider.url == p.url) = false := by
  intro s hs
  simp only [ProviderRegistry.initRegistry, List.mem_map] at hs
  obtain ⟨q, hq, rfl⟩ := hs
  exact beq_eq_false_iff_ne.mpr (hpre q hq)

theorem two_failures_state (pre post : List RpcProvider) (p : RpcProvider)
    (t1 t2 : Nat) (hpre : ∀ q ∈ pre, q.url ≠ p.url) :
    ProviderRegistry.report_failure p.url t2
      (ProviderRegistry.report_failure p.url t1
        (ProviderRegistry.initRegistry (pre ++ p :: post))) =
    ProviderRegistry.initRegistry pre ++
      ProviderRegistry.ProviderState.mk p 2 none 0 ::
        ProviderRegistry.initRegistry post := by
  have hmem := initRegistry_pred_false hpre
  have hinit : ProviderRegistry.initRegistry (pre ++ p :: post) =
      ProviderRegistry.initRegistry pre ++
        ProviderRegistry.ProviderState.mk p 0 none 0 ::
          ProviderRegistry.initRegistry post := by
    simp [ProviderRegistry.initRegistry]
  have e1 : ProviderRegistry.report_failure p.url t1
      (ProviderRegistry.initRegistry (pre ++ p :: post)) =
      ProviderRegistry.initRegistry pre ++
        ProviderRegistry.ProviderState.mk p 1 none 0 ::
          ProviderRegistry.initRegistry post := by
    rw [hinit, ProviderRegistry.report_failure, updateFirst_append_not hmem,
      updateFirst_cons_true (by simp)]
    simp [ProviderRegistry.CIRCUIT_BREAKER_THRESHOLD]
  rw [e1, ProviderRegistry.report_failure, updateFirst_append_not hmem,
    updateFirst_cons_true (by simp)]
  simp [ProviderRegistry.CIRCUIT_BREAKER_THRESHOLD]

theorem three_failures_state (pre post : List RpcProvider) (p : RpcProvider)
    (t1 t2 t3 : Nat) (hpre : ∀ q ∈ pre, q.url ≠ p.url) :
    ProviderRegistry.report_failure p.url t3
      (ProviderRegistry.report_failure p.url t2
        (ProviderRegistry.report_failure p.url t1
          (ProviderRegistry.initRegistry (pre ++ p :: post)))) =
    ProviderRegistry.initRegistry pre ++
      ProviderRegistry.ProviderState.mk p 3 (some t3) 0 ::
        ProviderRegistry.initRegistry post := by
  have hmem := initRegistry_pred_false hpre
  rw [two_failures_state pre post p t1 t2 hpre, ProviderRegistry.report_failure,
    updateFirst_append_not hmem, updateFirst_cons_true (by simp)]
  simp [ProviderRegistry.CIRCUIT_BREAKER_THRESHOLD]

/-- C4.  Starting from a registry built over an ordered provider list
`pre ++ p :: post` whose earlier providers do not share the url of `p`:
after two failures `p` is still listed; after the third (threshold)
consecutive failure `p` is excluded from `healthy_providers()` for as long
as the cool-down has not elapsed; once the cool-down elapses `p` is included
again; and a single `report_success(p)` on the tripped registry includes it
immediately — in all cases the surviving providers keep their original
priority order. -/
theorem claim_C4_breaker_threshold_cooldown (pre post : List RpcProvider)
    (p : RpcProvider) (t1 t2 t3 : Nat) (hpre : ∀ q ∈ pre, q.url ≠ p.url) :
    (∀ now, ProviderRegistry.healthy_providers now
      (ProviderRegistry.report_failure p.url t2
        (ProviderRegistry.report_failure p.url t1
          (ProviderRegistry.initRegistry (pre ++ p :: post)))) = pre ++ p :: post) ∧
    (∀ now, now - t3 < ProviderRegistry.CIRCUIT_BREAKER_COOLDOWN →
      ProviderRegistry.healthy_providers now
        (ProviderRegistry.report_failure p.url t3
          (ProviderRegistry.report_failure p.url t2
            (ProviderRegistry.report_failure p.url t1
              (ProviderRegistry.initRegistry (pre ++ p :: post))))) = pre ++ post) ∧
    (∀ now, ProviderRegistry.CIRCUIT_BREAKER_COOLDOWN ≤ now - t3 →
      ProviderRegistry.healthy_providers now
        (ProviderRegistry.report_failure p.url t3
          (ProviderRegistry.report_failure p.url t2
            (ProviderRegistry.report_failure p.url t1
              (ProviderRegistry.initRegistry (pre ++ p :: post))))) = pre ++ p :: post) ∧
    (∀ now, ProviderRegistry.healthy_providers now
      (ProviderRegistry.report_success p.url
        (ProviderRegistry.report_failure p.url t3
          (ProviderRegistry.report_failure p.url t2
            (ProviderRegistry.report_failure p.url t1
              (ProviderRegistry.initRegistry (pre ++ p :: post)))))) =
        pre ++ p :: post) := by
  have hmem := initRegistry_pred_false hpre
  have hinit : ProviderRegistry.initRegistry (pre ++ p :: post) =
      ProviderRegistry.initRegistry pre ++
        ProviderRegistry.ProviderState.mk p 0 none 0 ::
          ProviderRegistry.initRegistry post := by
    simp [ProviderRegistry.initRegistry]
  have h3 := three_failures_state pre post p t1 t2 t3 hpre
  have htwo := two_failures_state pre post p t1 t2 hpre
  refine ⟨?_, ?_, ?_, ?_⟩
  · intro now
    rw [htwo, healthy_providers_append, healthy_providers_init,
      healthy_providers_cons, healthy_providers_init]
    simp [ProviderRegistry.is_available]
  · intro now hlt
    rw [h3, healthy_providers_append, healthy_providers_init,
      healthy_providers_cons, healthy_providers_init]
    simp [ProviderRegistry.is_available, Nat.not_le.mpr hlt]
  · intro now hge
    rw [h3, healthy_providers_append, healthy_providers_init,
      healthy_providers_cons, healthy_providers_init]
    simp [ProviderRegistry.is_available, hge]
  · intro now
    rw [h3, ProviderRegistry.report_success, updateFirst_append_not hmem,
      updateFirst_cons_true (by simp)]
    rw [healthy_providers_append, healthy_providers_init,
      healthy_providers_cons, healthy_providers_init]
    simp [ProviderRegistry.is_available]

/-- Witness for C4 with providers `[a, b]`: after three failures of `a` only
`b` is healthy; after the cool-down, and after one success report, both are. -/
theorem claim_C4_witness :
    (∀ now, ProviderRegistry.healthy_providers now
      (ProviderRegistry.report_failure "http://a" 0
        (ProviderRegistry.report_failure "http://a" 0
          (ProviderRegistry.initRegistry
            ([] ++ RpcProvider.mk "a" "http://a" none none ::
              [RpcProvider.mk "b" "http://b" none none])))) =
      [] ++ RpcProvider.mk "a" "http://a" none none ::
        [RpcProvider.mk "b" "http://b" none none]) ∧
    ProviderRegistry.healthy_providers 0
      (ProviderRegistry.report_failure "http://a" 0
        (ProviderRegistry.report_failure "http://a" 0
          (ProviderRegistry.report_failure "http://a" 0
            (ProviderRegistry.initRegistry
              ([] ++ RpcProvider.mk "a" "http://a" none none ::
                [RpcProvider.mk "b" "http://b" none none]))))) =
      [] ++ [RpcProvider.mk "b" "http://b" none none] ∧
    ProviderRegistry.healthy_providers 300
      (ProviderRegistry.report_failure "http://a" 0
        (ProviderRegistry.report_failure "http://a" 0
          (ProviderRegistry.report_failure "http://a" 0
            (ProviderRegistry.initRegistry
              ([] ++ RpcProvider.mk "a" "http://a" none none ::
                [RpcProvider.mk "b" "http://b" none none]))))) =
      [] ++ RpcProvider.mk "a" "http://a" none none ::
        [RpcProvider.mk "b" "http://b" none none] ∧
    ProviderRegistry.healthy_providers 0
      (ProviderRegistry.report_success "http://a"
        (ProviderRegistry.report_failure "http://a" 0
          (ProviderRegistry.report_failure "http://a" 0
            (ProviderRegistry.report_failure "http://a" 0
              (ProviderRegistry.initRegistry
                ([] ++ RpcProvider.mk "a" "http://a" none none ::
                  [RpcProvider.mk "b" "http://b" none none])))))) =
      [] ++ RpcProvider.mk "a" "http://a" none none ::
        [RpcProvider.mk "b" "http://b" none none] := by
  obtain ⟨h1, h2, h3, h4⟩ := claim_C4_breaker_threshold_cooldown []
    [RpcProvider.mk "b" "http://b" none none] (RpcProvider.mk "a" "http://a" none none)
    0 0 0 (by simp)
  exact ⟨h1, h2 0 (by decide), h3 300 (by decide), h4 0⟩

/-- C9.  The cool-down elapsing does not reset a tripped provider's failure
counter: after three failures the counter sits at the threshold with
`tripped_at` set; once the cool-down elapses the provider is listed again,
but a single further `report_failure` re-trips it immediately, stamping
`tripped_at` with the current instant; only `report_success` or a successful
health probe resets the counter to zero. -/
theorem claim_C9_no_counter_reset (pre post : List RpcProvider) (p : RpcProvider)
    (t1 t2 t3 now2 ledger now3 : Nat) (hpre : ∀ q ∈ pre, q.url ≠ p.url)
    (hcool : ProviderRegistry.CIRCUIT_BREAKER_COOLDOWN ≤ now2 - t3) :
    ProviderRegistry.report_failure p.url t3
      (ProviderRegistry.report_failure p.url t2
        (ProviderRegistry.report_failure p.url t1
          (ProviderRegistry.initRegistry (pre ++ p :: post)))) =
      ProviderRegistry.initRegistry pre ++
        ProviderRegistry.ProviderState.mk p 3 (some t3) 0 ::
          ProviderRegistry.initRegistry post ∧
    ProviderRegistry.healthy_providers now2
      (ProviderRegistry.report_failure p.url t3
        (ProviderRegistry.report_failure p.url t2
          (ProviderRegistry.report_failure p.url t1
            (ProviderRegistry.initRegistry (pre ++ p :: post))))) = pre ++ p :: post ∧
    ProviderRegistry.report_failure p.url now2
      (ProviderRegistry.report_failure p.url t3
        (ProviderRegistry.report_failure p.url t2
          (ProviderRegistry.report_failure p.url t1
            (ProviderRegistry.initRegistry (pre ++ p :: post))))) =
      ProviderRegistry.initRegistry pre ++
        ProviderRegistry.ProviderState.mk p 4 (some now2) 0 ::
          ProviderRegistry.initRegistry post ∧
    ProviderRegistry.healthy_providers now2
      (ProviderRegistry.report_failure p.url now2
        (ProviderRegistry.report_failure p.url t3
          (ProviderRegistry.report_failure p.url t2
            (ProviderRegistry.report_failure p.url t1
              (ProviderRegistry.initRegistry (pre ++ p :: post)))))) = pre ++ post ∧
    ProviderRegistry.report_success p.url
      (ProviderRegistry.report_failure p.url now2
        (ProviderRegistry.report_failure p.url t3
          (ProviderRegistry.report_failure p.url t2
            (ProviderRegistry.report_failure p.url t1
              (ProviderRegistry.initRegistry (pre ++ p :: post)))))) =
      ProviderRegistry.initRegistry pre ++
        ProviderRegistry.ProviderState.mk p 0 none 0 ::
          ProviderRegistry.initRegistry post ∧
    ProviderRegistry.health_check_update
      (ProviderRegistry.ProviderState.mk p 4 (some now2) 0) (some ledger) now3 =
      ProviderRegistry.ProviderState.mk p 0 none ledger := by
  have hmem := initRegistry_pred_false hpre
  have h3 := three_failures_state pre post p t1 t2 t3 hpre
  have h4 : ProviderRegistry.report_failure p.url now2
      (ProviderRegistry.report_failure p.url t3
        (ProviderRegistry.report_failure p.url t2
          (ProviderRegistry.report_failure p.url t1
            (ProviderRegistry.initRegistry (pre ++ p :: post))))) =
      ProviderRegistry.initRegistry pre ++
        ProviderRegistry.ProviderState.mk p 4 (some now2) 0 ::
          ProviderRegistry.initRegistry post := by
    rw [h3, ProviderRegistry.report_failure, updateFirst_append_not hmem,
      updateFirst_cons_true (by simp)]
    simp [ProviderRegistry.CIRCUIT_BREAKER_THRESHOLD]
  refine ⟨h3, ?_, h4, ?_, ?_, ?_⟩
  · rw [h3, healthy_providers_append, healthy_providers_init,
      healthy_providers_cons, healthy_providers_init]
    simp [ProviderRegistry.is_available, hcool]
  · rw [h4, healthy_providers_append, healthy_providers_init,
      healthy_providers_cons, healthy_providers_init]
    simp [ProviderRegistry.is_available, ProviderRegistry.CIRCUIT_BREAKER_COOLDOWN]
  · rw [h4, ProviderRegistry.report_success, updateFirst_append_not hmem,
      updateFirst_cons_true (by simp)]
  · rfl

/-- Witness for C9 with providers `[a, b]`, trip at instant 0 and the
cool-down just elapsed at instant 300. -/
theorem claim_C9_witness :
    ProviderRegistry.healthy_providers 300
      (ProviderRegistry.report_failure "http://a" 0
        (ProviderRegistry.report_failure "http://a" 0
          (ProviderRegistry.report_failure "http://a" 0
            (ProviderRegistry.initRegistry
              ([] ++ RpcProvider.mk "a" "http://a" none none ::
                [RpcProvider.mk "b" "http://b" none none]))))) =
      [] ++ RpcProvider.mk "a" "http://a" none none ::
        [RpcProvider.mk "b" "http://b" none none] ∧
    ProviderRegistry.healthy_providers 300
      (ProviderRegistry.report_failure "http://a" 300
        (ProviderRegistry.report_failure "http://a" 0
          (ProviderRegistry.report_failure "http://a" 0
            (ProviderRegistry.report_failure "http://a" 0
              (ProviderRegistry.initRegistry
                ([] ++ RpcProvider.mk "a" "http://a" none none ::
                  [RpcProvider.mk "b" "http://b" none none])))))) =
      [] ++ [RpcProvider.mk "b" "http://b" none none] ∧
    ProviderRegistry.health_check_update
      (ProviderRegistry.ProviderState.mk (RpcProvider.mk "a" "http://a" none none)
        4 (some 300) 0) (some 42) 301 =
      ProviderRegistry.ProviderState.mk (RpcProvider.mk "a" "http://a" none none)
        0 none 42 := by
  obtain ⟨_, h2, _, h4, _, h6⟩ := claim_C9_no_counter_reset []
    [RpcProvider.mk "b" "http://b" none none] (RpcProvider.mk "a" "http://a" none none)
    0 0 0 300 42 301 (by simp) (by decide)
  exact ⟨h2, h4, h6⟩

-- ── C5: failover and retry classification ────────────────────────────────────

theorem failover_go_stops
    (attempt : RpcProvider → Except SimulationError SimulationResult) :
    ∀ (pre : List RpcProvider) (p : RpcProvider) (post : List RpcProvider)
      (lastError : Option SimulationError) (e0 : SimulationError),
      (∀ q ∈ pre, ∃ e, attempt q = .error e ∧ SimulationEngine.should_retry e = true) →
      attempt p = .error e0 → SimulationEngine.should_retry e0 = false →
      SimulationEngine.failover_go attempt (pre ++ p :: post) lastError =
        ((pre ++ [p]).map (fun q => q.url), .error e0) := by
  intro pre
  induction pre with
  | nil =>
    intro p post lastError e0 _ hp hnr
    simp [SimulationEngine.failover_go, hp, hnr]
  | cons q rest ih =>
    intro p post lastError e0 hpre hp hnr
    obtain ⟨e, hq, hr⟩ := hpre q (by simp)
    simp only [List.cons_append, SimulationEngine.failover_go, hq, hr, if_true,
      List.append_eq]
    rw [ih p post (some e) e0 (fun r hrm => hpre r (by simp [hrm])) hp hnr]
    simp

/-- C5.  In the failover dispatch, a provider that returns JSON-RPC error
code −32602 (node-rejected parameters) makes the engine return that error
immediately: the trace stops at that provider and no later provider is
attempted.  And the retry classification holds only for timeouts, transport
errors, and HTTP status errors whose status is 429 or at least 500. -/
theorem claim_C5_non_retryable_returns_immediately :
    (∀ (attempt : RpcProvider → Except SimulationError SimulationResult)
       (pre post : List RpcProvider) (p : RpcProvider) (msg : String),
       (∀ q ∈ pre, ∃ e, attempt q = .error e ∧ SimulationEngine.should_retry e = true) →
       attempt p = .error (SimulationEngine.rpc_error_to_simulation_error (-32602) msg) →
       SimulationEngine.simulate_transaction_with_failover attempt (pre ++ p :: post) =
         ((pre ++ [p]).map (fun q => q.url),
          Except.error (SimulationError.nodeError ("Invalid parameters: " ++ msg)))) ∧
    (∀ e, SimulationEngine.should_retry e = true ↔
       (e = SimulationError.nodeTimeout ∨ (∃ m, e = SimulationError.networkError m) ∨
        ∃ m status, e = SimulationError.rpcRequestFailed m ∧
          strStarts m "HTTP error:" = true ∧
          (SimulationEngine.lastWhitespaceToken m).bind parseU16 = some status ∧
          (status = 429 ∨ 500 ≤ status))) := by
  have hmap : ∀ msg, SimulationEngine.rpc_error_to_simulation_error (-32602) msg =
      SimulationError.nodeError ("Invalid parameters: " ++ msg) := by
    intro msg
    norm_num [SimulationEngine.rpc_error_to_simulation_error]
  constructor
  · intro attempt pre post p msg hpre hp
    rw [hmap] at hp
    have hempty : (pre ++ p :: post).isEmpty = false := by
      cases pre <;> simp
    rw [SimulationEngine.simulate_transaction_with_failover, hempty]
    simp only [Bool.false_eq_true, if_false]
    exact failover_go_stops attempt pre p post none
      (SimulationError.nodeError ("Invalid parameters: " ++ msg)) hpre hp rfl
  · intro e
    constructor
    · intro h
      cases e with
      | nodeTimeout => exact Or.inl rfl
      | networkError m => exact Or.inr (Or.inl ⟨m, rfl⟩)
      | rpcRequestFailed m =>
        refine Or.inr (Or.inr ?_)
        simp only [SimulationEngine.should_retry] at h
        by_cases hs : strStarts m "HTTP error:" = true
        · rw [if_pos hs] at h
          cases hlt : SimulationEngine.lastWhitespaceToken m with
          | none => rw [hlt] at h; cases h
          | some tok =>
            rw [hlt] at h
            dsimp only at h
            cases hpu : parseU16 tok with
            | none => rw [hpu] at h; cases h
            | some status =>
              rw [hpu] at h
              refine ⟨m, status, rfl, hs, by rw [hlt]; exact hpu, ?_⟩
              simp [ProviderRegistry.is_retryable_status] at h
              omega
        · rw [if_neg hs] at h; cases h
      | io m => cases h
      | nodeError m => cases h
      | serializationError m => cases h
      | base64Error m => cases h
      | xdrError m => cases h
      | parseError pe => cases h
    · intro h
      rcases h with rfl | ⟨m, rfl⟩ | ⟨m, status, rfl, hs, hbind, hst⟩
      · rfl
      · rfl
      · simp only [SimulationEngine.should_retry, hs, if_true]
        cases hlt : SimulationEngine.lastWhitespaceToken m with
        | none => rw [hlt] at hbind; cases hbind
        | some tok =>
          rw [hlt] at hbind
          simp only [Option.bind] at hbind
          dsimp only
          rw [hbind]
          dsimp only
          simp only [ProviderRegistry.is_retryable_status]
          rcases hst with h | h
          · simp [h]
          · simp [h]

/-- Witness for C5: with providers `[a, b]` and `a` answering with RPC code
−32602, the dispatcher returns the mapped error after attempting only `a`. -/
theorem claim_C5_witness :
    SimulationEngine.simulate_transaction_with_failover
      (fun p => if p.url = "http://a" then
          Except.error (SimulationEngine.rpc_error_to_simulation_error (-32602) "oops")
        else Except.ok (SimulationResult.mk (SorobanResources.mk 0 0 0 0 0) none 0 0 none))
      ([] ++ RpcProvider.mk "a" "http://a" none none ::
        [RpcProvider.mk "b" "http://b" none none]) =
      (([] ++ [RpcProvider.mk "a" "http://a" none none]).map
          (fun q : RpcProvider => q.url),
       Except.error (SimulationError.nodeError ("Invalid parameters: " ++ "oops"))) :=
  claim_C5_non_retryable_returns_immediately.1 _ []
    [RpcProvider.mk "b" "http://b" none none]
    (RpcProvider.mk "a" "http://a" none none) "oops" (by simp) (by simp)

-- ── C10: prefixed arguments fall back to the symbol arm ──────────────────────

theorem strStarts_head_eq {s : String} {c : Char} {t : List Char} {p : String}
    {pc : Char} (hs : s.data = c :: t) (hp : p.data = [pc]) (he : pc = c) :
    strStarts s p = true := by
  simp [strStarts, hs, hp, List.isPrefixOf, he]

theorem strStarts_two_eq {s : String} {c d : Char} {t : List Char} {p : String}
    {pc pd : Char} (hs : s.data = c :: d :: t) (hp : p.data = [pc, pd])
    (h1 : pc = c) (h2 : pd = d) : strStarts s p = true := by
  simp [strStarts, hs, hp, List.isPrefixOf, h1, h2]

theorem strStarts_head_ne {s : String} {c : Char} {t : List Char} {p : String}
    {pc : Char} {pt : List Char} (hs : s.data = c :: t) (hp : p.data = pc :: pt)
    (hne : pc ≠ c) : strStarts s p = false := by
  simp only [strStarts, hs, hp, List.isPrefixOf]
  rw [beq_eq_false_iff_ne.mpr hne, Bool.false_and]

theorem parseU64_head_not_digit {s : String} {c : Char} {t : List Char}
    (hs : s.data = c :: t) (hplus : c ≠ '+') (hdig : c.isDigit = false) :
    parseU64 s = none := by
  simp [parseU64, stripPlus, hs, hplus, hdig]

theorem parseU64_second_not_digit {s : String} {c d : Char} {t : List Char}
    (hs : s.data = c :: d :: t) (hplus : c ≠ '+') (hdig : d.isDigit = false) :
    parseU64 s = none := by
  simp [parseU64, stripPlus, hs, hplus, hdig]

theorem parseI64_head_not_digit {s : String} {c : Char} {t : List Char}
    (hs : s.data = c :: t) (hsign : ¬(c = '+' ∨ c = '-')) (hdig : c.isDigit = false) :
    parseI64 s = none := by
  simp [parseI64, stripSign, hs, hsign, hdig]

theorem parseI64_second_not_digit {s : String} {c d : Char} {t : List Char}
    (hs : s.data = c :: d :: t) (hsign : ¬(c = '+' ∨ c = '-')) (hdig : d.isDigit = false) :
    parseI64 s = none := by
  simp [parseI64, stripSign, hs, hsign, hdig]

/-- C10.  A (trimmed) argument that begins with `G`, `C`, `:` or `0x` but is
rejected by the argument parser does not surface a parse error: the quoted
round-trip failure is swallowed, and the argument falls back to
`Symbol(argument)` whenever it is at most 32 bytes long; the engine errors
(`NodeError` with a cannot-parse message) only when this symbol fallback
also fails, i.e. past 32 bytes. -/
theorem claim_C10_reject_falls_back_to_symbol (jsonP : String → Except String Json)
    (strkeyP : List Nat → Option ScAddress) (arg : String) (e : ParserError)
    (htrim : SimulationEngine.rustTrim arg = arg)
    (hhead : (∃ t, arg.data = 'G' :: t) ∨ (∃ t, arg.data = 'C' :: t) ∨
      (∃ t, arg.data = ':' :: t) ∨ (∃ t, arg.data = '0' :: 'x' :: t))
    (hrej : ArgParser.parse jsonP strkeyP ("\"" ++ arg ++ "\"") = .error e) :
    SimulationEngine.parse_sc_val_arg jsonP strkeyP arg =
      (if rustLen arg ≤ 32 then Except.ok (ScVal.scvSymbol (strBytes arg))
       else Except.error (SimulationError.nodeError ("Cannot parse argument: " ++ arg))) := by
  rcases hhead with ⟨t, hd⟩ | ⟨t, hd⟩ | ⟨t, hd⟩ | ⟨t, hd⟩
  · have hbrace := strStarts_head_ne hd (p := "\x7b") rfl (by decide)
    have hbracket := strStarts_head_ne hd (p := "[") rfl (by decide)
    have hquote := strStarts_head_ne hd (p := "\"") rfl (by decide)
    have hg := strStarts_head_eq hd (p := "G") rfl rfl
    have hi := parseI64_head_not_digit hd (by decide) (by decide)
    have hu := parseU64_head_not_digit hd (by decide) (by decide)
    simp [SimulationEngine.parse_sc_val_arg, htrim, hbrace, hbracket, hquote, hg,
      hi, hu, hrej, Except.toOption, hd]
  · have hbrace := strStarts_head_ne hd (p := "\x7b") rfl (by decide)
    have hbracket := strStarts_head_ne hd (p := "[") rfl (by decide)
    have hquote := strStarts_head_ne hd (p := "\"") rfl (by decide)
    have hc := strStarts_head_eq hd (p := "C") rfl rfl
    have hi := parseI64_head_not_digit hd (by decide) (by decide)
    have hu := parseU64_head_not_digit hd (by decide) (by decide)
    simp [SimulationEngine.parse_sc_val_arg, htrim, hbrace, hbracket, hquote, hc,
      hi, hu, hrej, Except.toOption, hd]
  · have hbrace := strStarts_head_ne hd (p := "\x7b") rfl (by decide)
    have hbracket := strStarts_head_ne hd (p := "[") rfl (by decide)
    have hquote := strStarts_head_ne hd (p := "\"") rfl (by decide)
    have hcol := strStarts_head_eq hd (p := ":") rfl rfl
    have hi := parseI64_head_not_digit hd (by decide) (by decide)
    have hu := parseU64_head_not_digit hd (by decide) (by decide)
    simp [SimulationEngine.parse_sc_val_arg, htrim, hbrace, hbracket, hquote, hcol,
      hi, hu, hrej, Except.toOption, hd]
  · have hbrace := strStarts_head_ne hd (p := "\x7b") rfl (by decide)
    have hbracket := strStarts_head_ne hd (p := "[") rfl (by decide)
    have hquote := strStarts_head_ne hd (p := "\"") rfl (by decide)
    have h0x := strStarts_two_eq hd (p := "0x") rfl rfl rfl
    have hi := parseI64_second_not_digit hd (by decide) (by decide)
    have hu := parseU64_second_not_digit hd (by decide) (by decide)
    simp [SimulationEngine.parse_sc_val_arg, htrim, hbrace, hbracket, hquote, h0x,
      hi, hu, hrej, Except.toOption, hd]

/-- Witness for C10: `0x123` (odd-length hex, rejected by the quoted
round-trip, here with a failing JSON front-end) silently falls back to
`Symbol("0x123")`. -/
theorem claim_C10_witness :
    SimulationEngine.parse_sc_val_arg (fun _ => Except.error "expected value")
      (fun _ => none) "0x123" = Except.ok (ScVal.scvSymbol (strBytes "0x123")) := by
  have h := claim_C10_reject_falls_back_to_symbol (fun _ => Except.error "expected value")
    (fun _ => none) "0x123" (ParserError.invalidType (strBytes "$")
      (strBytes "valid JSON") (strBytes "expected value"))
    (by decide) (Or.inr (Or.inr (Or.inr ⟨"123".data, rfl⟩))) rfl
  rw [h, if_pos (by decide)]

-- ── C1 and C3: the priced result record ──────────────────────────────────────

theorem parseU64_lt {s : String} {n : Nat} (h : parseU64 s = some n) : n < u64Size := by
  simp only [parseU64] at h
  split at h
  · split at h
    · cases h; assumption
    · cases h
  · cases h

theorem parseU64_getD_lt (s : String) : (parseU64 s).getD 0 < u64Size := by
  cases h : parseU64 s with
  | none => simp [u64Size, Nat.two_pow_pos]
  | some n => simp [parseU64_lt h]

theorem extract_footprint_lt (b64decode : String → Option (List Nat))
    (sorobanDataP : List Nat → Option Footprint) (d : String) :
    (SimulationEngine.extract_footprint_from_xdr b64decode sorobanDataP d).1 < u64Size ∧
    (SimulationEngine.extract_footprint_from_xdr b64decode sorobanDataP d).2 < u64Size := by
  unfold SimulationEngine.extract_footprint_from_xdr
  have hpos : 0 < u64Size := Nat.two_pow_pos 64
  split
  · exact ⟨hpos, hpos⟩
  · cases b64decode d with
    | none => exact ⟨hpos, hpos⟩
    | some bytes =>
      dsimp only
      cases sorobanDataP bytes with
      | none => exact ⟨hpos, hpos⟩
      | some fp =>
        dsimp only
        exact ⟨Nat.mod_lt _ hpos, Nat.mod_lt _ hpos⟩

theorem calculate_cost_no_wrap (r : SorobanResources)
    (hcpu : r.cpu_instructions < u64Size) (hram : r.ram_bytes < u64Size) :
    SimulationEngine.calculate_cost r =
      r.cpu_instructions / 10000 + r.ram_bytes / 1024 +
        ((r.ledger_read_bytes + r.ledger_write_bytes) % u64Size) / 1024 := by
  unfold SimulationEngine.calculate_cost
  apply Nat.mod_eq_of_lt
  have h1 : r.cpu_instructions / 10000 ≤ (u64Size - 1) / 10000 :=
    Nat.div_le_div_right (by omega)
  have h2 : r.ram_bytes / 1024 ≤ (u64Size - 1) / 1024 :=
    Nat.div_le_div_right (by omega)
  have hm : (r.ledger_read_bytes + r.ledger_write_bytes) % u64Size < u64Size :=
    Nat.mod_lt _ (Nat.two_pow_pos 64)
  have h3 : (r.ledger_read_bytes + r.ledger_write_bytes) % u64Size / 1024 ≤
      (u64Size - 1) / 1024 := Nat.div_le_div_right (by omega)
  have hc : (u64Size - 1) / 10000 + (u64Size - 1) / 1024 + (u64Size - 1) / 1024 <
      u64Size := by decide
  omega

/-- C1, amended.  For every successful simulation the engine computes
`cost_stroops = cpu/10000 + ram/1024 + (read+write)/1024` (integer division,
with the read+write sum taken in `u64`) over the resources of the result —
the baseline fee has no transaction-size component. -/
theorem claim_C1_amended (b64decode : String → Option (List Nat))
    (sorobanDataP : List Nat → Option Footprint) (rpc_result : SimulationRpcResult)
    (r : SimulationResult)
    (h : SimulationEngine.parse_simulation_result b64decode sorobanDataP rpc_result =
      Except.ok r) :
    r.cost_stroops = r.resources.cpu_instructions / 10000 +
      r.resources.ram_bytes / 1024 +
      ((r.resources.ledger_read_bytes + r.resources.ledger_write_bytes) % u64Size) /
        1024 := by
  cases hc : rpc_result.cost with
  | none =>
    simp only [SimulationEngine.parse_simulation_result, hc] at h
    cases h
    simp [SimulationEngine.calculate_cost]
  | some cost =>
    simp only [SimulationEngine.parse_simulation_result, hc] at h
    cases h
    exact calculate_cost_no_wrap _ (parseU64_getD_lt cost.cpu_insns)
      (parseU64_getD_lt cost.mem_bytes)

/-- Witness for C1 (amended) on a concrete response. -/
theorem claim_C1_witness :
    SimulationEngine.parse_simulation_result (fun _ => none) (fun _ => none)
      (SimulationRpcResult.mk "AAAA" 5 (some (ResourceCost.mk "1" "2"))) =
      Except.ok (SimulationResult.mk (SorobanResources.mk 1 2 0 0 4) none 5 0 none) ∧
    (SimulationResult.mk (SorobanResources.mk 1 2 0 0 4) none 5 0 none).cost_stroops =
      1 / 10000 + 2 / 1024 + ((0 + 0) % u64Size) / 1024 :=
  ⟨by decide, claim_C1_amended (fun _ => none) (fun _ => none)
    (SimulationRpcResult.mk "AAAA" 5 (some (ResourceCost.mk "1" "2"))) _ (by decide)⟩

theorem strBytes_mk (l : List Char) :
    strBytes (String.mk l) =
      l.flatMap (fun c => (String.utf8EncodeChar c).map (fun b => b.toNat)) := rfl

theorem strBytes_replicate_A (n : Nat) :
    strBytes (String.mk (List.replicate n 'A')) = List.replicate n 65 := by
  induction n with
  | zero => rfl
  | succ k ih =>
    rw [strBytes_mk, List.replicate_succ, List.flatMap_cons]
    rw [strBytes_mk] at ih
    rw [ih, show (String.utf8EncodeChar 'A').map (fun b => b.toNat) = [65] from by decide]
    simp [List.replicate_succ]

theorem rustLen_replicate_A (n : Nat) :
    rustLen (String.mk (List.replicate n 'A')) = n := by
  simp [rustLen, strBytes_replicate_A]

/-- C1, counterexample.  A successful simulation whose `transactionData` is
1024 bytes long: the code prices it at 0 stroops, while the claimed formula
with its transaction-size component gives 1. -/
theorem claim_C1_counterexample :
    SimulationEngine.parse_simulation_result (fun _ => none) (fun _ => none)
      (SimulationRpcResult.mk (String.mk (List.replicate 1024 'A')) 7
        (some (ResourceCost.mk "0" "0"))) =
      Except.ok (SimulationResult.mk (SorobanResources.mk 0 0 0 0 1024) none 7 0 none) ∧
    (0 : Nat) ≠ 0 / 10000 + 0 / 1024 + (0 + 0) / 1024 + 1024 / 1024 := by
  constructor
  · have hfp : SimulationEngine.extract_footprint_from_xdr (fun _ => none)
        (fun _ => none) (String.mk (List.replicate 1024 'A')) = (0, 0) := by
      unfold SimulationEngine.extract_footprint_from_xdr
      split
      · rfl
      · rfl
    simp only [SimulationEngine.parse_simulation_result, hfp,
      rustLen_replicate_A]
    norm_num [show parseU64 "0" = some 0 from by decide]
    decide
  · decide

/-- C3, amended.  For every successful simulation result,
`transaction_size_bytes` is the length of the base-64 `transactionData`
string of the RPC response as transmitted (0 when the response carries no
cost object) — not the binary length of the outbound envelope. -/
theorem claim_C3_amended (b64decode : String → Option (List Nat))
    (sorobanDataP : List Nat → Option Footprint) (rpc_result : SimulationRpcResult)
    (r : SimulationResult)
    (h : SimulationEngine.parse_simulation_result b64decode sorobanDataP rpc_result =
      Except.ok r) :
    r.resources.transaction_size_bytes =
      (match rpc_result.cost with
       | some _ => rustLen rpc_result.transaction_data
       | none => 0) := by
  cases hc : rpc_result.cost with
  | none =>
    simp only [SimulationEngine.parse_simulation_result, hc] at h
    cases h
    rfl
  | some cost =>
    simp only [SimulationEngine.parse_simulation_result, hc] at h
    cases h
    rfl

/-- Witness for C3 (amended) on a concrete response. -/
theorem claim_C3_witness :
    SimulationEngine.parse_simulation_result (fun _ => none) (fun _ => none)
      (SimulationRpcResult.mk "AAAA" 9 (some (ResourceCost.mk "3" "4"))) =
      Except.ok (SimulationResult.mk (SorobanResources.mk 3 4 0 0 4) none 9 0 none) ∧
    (SimulationResult.mk (SorobanResources.mk 3 4 0 0 4)
      none 9 0 none).resources.transaction_size_bytes = rustLen "AAAA" :=
  ⟨by decide, claim_C3_amended (fun _ => none) (fun _ => none)
    (SimulationRpcResult.mk "AAAA" 9 (some (ResourceCost.mk "3" "4"))) _ (by decide)⟩

set_option maxRecDepth 4000 in
/-- C3, counterexample.  The outbound envelope of a minimal invocation
(`hello`, no arguments) is 136 bytes of canonical XDR, yet a successful
simulation for it whose response carries the 4-character `transactionData`
string `AAAA` records `transaction_size_bytes = 4`: the field tracks the
response string, not the envelope. -/
theorem claim_C3_counterexample :
    (SimulationEngine.build_invoke_host_function_transaction_xdr
      (.invokeContract (.contract (List.replicate 32 0)) (strBytes "hello") [])
      []).length = 136 ∧
    SimulationEngine.parse_simulation_result (fun _ => none) (fun _ => none)
      (SimulationRpcResult.mk "AAAA" 5 (some (ResourceCost.mk "1" "2"))) =
      Except.ok (SimulationResult.mk (SorobanResources.mk 1 2 0 0 4) none 5 0 none) ∧
    (SimulationResult.mk (SorobanResources.mk 1 2 0 0 4)
      none 5 0 none).resources.transaction_size_bytes ≠ 136 := by
  refine ⟨by decide, by decide, by decide⟩

-- ── C8: cost monotonicity ────────────────────────────────────────────────────

/-- C8, counterexample.  Under the protocol-21 schedule, monotonicity fails
at the `u64` wrap of the read+write sum: `r1 ≤ r2` componentwise, yet
`calculate_cost r1 = 1 > 0 = calculate_cost r2`. -/
theorem claim_C8_counterexample :
    SorobanResources.le (SorobanResources.mk 0 0 0 1024 0)
      (SorobanResources.mk 0 0 (2 ^ 64 - 1024) 1024 0) ∧
    ¬ (protocol_21.calculate_cost (SorobanResources.mk 0 0 0 1024 0) ≤
       protocol_21.calculate_cost (SorobanResources.mk 0 0 (2 ^ 64 - 1024) 1024 0)) := by
  constructor
  · exact ⟨Nat.le_refl 0, Nat.le_refl 0, Nat.zero_le _, Nat.le_refl 1024, Nat.le_refl 0⟩
  · decide

/-- C8, amended.  For every cost schedule and all resource records `r1 ≤ r2`
componentwise, `calculate_cost r1 ≤ calculate_cost r2` — provided the `u64`
arithmetic does not wrap on `r2`: its read+write sum and its total fee stay
below `2^64`. -/
theorem claim_C8_amended (cfg : NetworkConfig) (r1 r2 : SorobanResources)
    (hle : SorobanResources.le r1 r2)
    (hrw : r2.ledger_read_bytes + r2.ledger_write_bytes < u64Size)
    (htot : r2.cpu_instructions / cfg.cpu_insns_per_fee_unit +
        r2.ram_bytes / cfg.mem_bytes_per_fee_unit +
        (r2.ledger_read_bytes + r2.ledger_write_bytes) / cfg.ledger_bytes_per_fee_unit +
        r2.transaction_size_bytes / cfg.tx_size_bytes_per_fee_unit < u64Size) :
    cfg.calculate_cost r1 ≤ cfg.calculate_cost r2 := by
  obtain ⟨h1, h2, h3, h4, h5⟩ := hle
  unfold NetworkConfig.calculate_cost
  have hs1 : r1.ledger_read_bytes + r1.ledger_write_bytes < u64Size := by omega
  rw [Nat.mod_eq_of_lt hs1, Nat.mod_eq_of_lt hrw]
  have d1 : r1.cpu_instructions / cfg.cpu_insns_per_fee_unit ≤
      r2.cpu_instructions / cfg.cpu_insns_per_fee_unit := Nat.div_le_div_right h1
  have d2 : r1.ram_bytes / cfg.mem_bytes_per_fee_unit ≤
      r2.ram_bytes / cfg.mem_bytes_per_fee_unit := Nat.div_le_div_right h2
  have d3 : (r1.ledger_read_bytes + r1.ledger_write_bytes) /
      cfg.ledger_bytes_per_fee_unit ≤
      (r2.ledger_read_bytes + r2.ledger_write_bytes) /
        cfg.ledger_bytes_per_fee_unit := Nat.div_le_div_right (by omega)
  have d4 : r1.transaction_size_bytes / cfg.tx_size_bytes_per_fee_unit ≤
      r2.transaction_size_bytes / cfg.tx_size_bytes_per_fee_unit :=
    Nat.div_le_div_right h5
  rw [Nat.mod_eq_of_lt htot, Nat.mod_eq_of_lt (by omega)]
  omega

/-- Witness for C8 (amended) under the protocol-21 schedule. -/
theorem claim_C8_witness :
    SorobanResources.le (SorobanResources.mk 0 0 0 0 0)
      (SorobanResources.mk 1000000 2048 512 256 1024) ∧
    protocol_21.calculate_cost (SorobanResources.mk 0 0 0 0 0) ≤
      protocol_21.calculate_cost (SorobanResources.mk 1000000 2048 512 256 1024) :=
  ⟨by decide, claim_C8_amended protocol_21 (SorobanResources.mk 0 0 0 0 0)
    (SorobanResources.mk 1000000 2048 512 256 1024) (by decide) (by decide) (by decide)⟩
